import Mathlib

/-!
Verification development for the buildpp build orchestrator.

The definitions below are shallow embeddings of the Rust sources:
`src/lsd.rs` (the LSD configuration grammar), `src/configuration.rs`
(the configuration loader and build engine), `src/profile/msvc.rs`
(the MSVC compiler profile), `src/dependency/local_build.rs` and
`src/dependency/local_pair.rs` (dependency kinds), `src/util.rs`
(filesystem and string helpers) and `src/main.rs` (`BuildType`).

Filesystem modification times are modelled as natural numbers; paths are
modelled as strings joined with `/` (the Unix `Path::join`/`display`
behaviour).  Machine-level details (I/O errors, process spawning) are
modelled with explicit outcome types.
-/

namespace Buildpp

--
-- LSD data model (src/lsd.rs): `LSD` is either a scalar `Value` or a
-- `Level`, an insertion-ordered map from string keys to LSD nodes.
-- The ordered map `IndexMap` is modelled as an association list.
--

inductive LSD where
  | value (s : String)
  | level (entries : List (String × LSD))
deriving Repr

/-- A `Level` is an insertion-ordered map, modelled as an association list. -/
abbrev Level := List (String × LSD)

/-- `IndexMap::get`: first entry with the given key, if any. -/
def lookupLevel (lvl : Level) (key : String) : Option LSD :=
  (lvl.find? (fun e => e.1 = key)).map (fun e => e.2)

/-- `IndexMap::insert`: replace in place if the key exists (keeping its
position), otherwise append at the end. -/
def levelInsert (lvl : Level) (key : String) (v : LSD) : Level :=
  if (lookupLevel lvl key).isSome then
    lvl.map (fun e => if e.1 = key then (key, v) else e)
  else
    lvl ++ [(key, v)]

--
-- merge_level (src/lsd.rs lines 102-120).
--
-- For each entry of `level`:
--  * a scalar value under a key already present in `insert_into` is the
--    error `KeyCollisionValueAlreadyExists`;
--  * a level under a key holding a scalar is
--    `KeyCollisionValueWhenShouldBeLevel`;
--  * a level under a key holding a level is merged recursively
--    (`entry(..).or_insert_with(Level::default)` appends an empty level
--    when the key is absent).
--

inductive LSDParseError where
  | emptyWhenExpectedValue
  | unexpectedNonEmptyInlineLevel
  | unexpectedLevelEnd
  | unexpectedAfterLevelEnd
  | unexpectedListEnd
  | unexpectedAfterListEnd
  | unexpectedStringEnd
  | unexpectedCharEscapeEnd
  | unexpectedCharEscapeUnicode
  | keyCollisionValueWhenShouldBeLevel
  | keyCollisionValueAlreadyExists (key : String)
deriving Repr, DecidableEq

/-- The recursion of `merge_level`, made structural with a fuel
parameter so that closed instances compute inside the kernel.  Every
recursive call's second argument is structurally smaller, so any fuel
at or above `sizeOf` of the merged level never runs out (the fuel-zero
arm is unreachable from `mergeLevel`; see `mergeLevelF_fuel_eq`). -/
def mergeLevelF : Nat → Level → Level → Except LSDParseError Level
  | 0, insertInto, _ => .ok insertInto
  | _ + 1, insertInto, [] => .ok insertInto
  | fuel + 1, insertInto, (key, LSD.value v) :: rest =>
    -- `insert_into.insert(key, value).is_none().ok_or_else(..)`
    if (lookupLevel insertInto key).isSome then
      .error (.keyCollisionValueAlreadyExists key)
    else
      mergeLevelF fuel (insertInto ++ [(key, LSD.value v)]) rest
  | fuel + 1, insertInto, (key, LSD.level lvl) :: rest =>
    match lookupLevel insertInto key with
    | some (LSD.value _) => .error .keyCollisionValueWhenShouldBeLevel
    | some (LSD.level l0) =>
      match mergeLevelF fuel l0 lvl with
      | .error e => .error e
      | .ok merged => mergeLevelF fuel (levelInsert insertInto key (LSD.level merged)) rest
    | none =>
      -- `entry(key).or_insert_with(Level::default)` appends an empty
      -- level, which `lvl` is then merged into in place
      match mergeLevelF fuel [] lvl with
      | .error e => .error e
      | .ok merged => mergeLevelF fuel (insertInto ++ [(key, LSD.level merged)]) rest

/-- The number of nodes of a level tree, as a lower bound for
sufficient fuel.  (Stated with `sizeOf`, which dominates it.) -/
theorem level_sizeOf_pos (lvl : Level) : 0 < sizeOf lvl := by
  cases lvl <;> simp

/-- Fuel irrelevance: any two fuels at or above `sizeOf lvl` yield the
same result, i.e. with sufficient fuel `mergeLevelF` computes the
unique fixed point of the source's recursion. -/
theorem mergeLevelF_fuel_eq :
    ∀ (f1 f2 : Nat) (insertInto lvl : Level), sizeOf lvl ≤ f1 → sizeOf lvl ≤ f2 →
      mergeLevelF f1 insertInto lvl = mergeLevelF f2 insertInto lvl := by
  intro f1
  induction f1 with
  | zero =>
    intro f2 insertInto lvl h1 _
    exact absurd h1 (by have := level_sizeOf_pos lvl; omega)
  | succ f1 ih =>
    intro f2 insertInto lvl h1 h2
    obtain ⟨g, rfl⟩ : ∃ g, f2 = g + 1 :=
      ⟨f2 - 1, by have := level_sizeOf_pos lvl; omega⟩
    cases lvl with
    | nil => rfl
    | cons hd rest =>
      obtain ⟨key, v⟩ := hd
      simp only [List.cons.sizeOf_spec, Prod.mk.sizeOf_spec] at h1 h2
      cases v with
      | value s =>
        simp only [mergeLevelF]
        split
        · rfl
        · exact ih g _ rest (by omega) (by omega)
      | level sub =>
        simp only [LSD.level.sizeOf_spec] at h1 h2
        simp only [mergeLevelF]
        split
        · rfl
        · rename_i l0 heq
          rw [ih g l0 sub (by omega) (by omega)]
          cases mergeLevelF g l0 sub with
          | error e => rfl
          | ok merged => exact ih g _ rest (by omega) (by omega)
        · rw [ih g [] sub (by omega) (by omega)]
          cases mergeLevelF g [] sub with
          | error e => rfl
          | ok merged => exact ih g _ rest (by omega) (by omega)

--
-- as_level (src/lsd.rs lines 122-145).
--
-- The source keeps a cursor `insert_into` into `result`, but every
-- non-last iteration reassigns it with `result.entry(key_part)` - an
-- entry of the ROOT map, not of the current cursor.  Consequently the
-- cursor is always either the root (`none` below) or a direct child of
-- the root (`some key`), and all intermediate key parts are or-inserted
-- at the root.  The final part's value is inserted through the cursor.
--

/-- Insert `(k, v)` through the `as_level` cursor: at the root itself, or
inside the root child level named by the cursor.  A cursor naming a
scalar child corresponds to the source's `unreachable!()` arm (values are
only ever inserted by the returning final step). -/
def asLevelCursorInsert (result : Level) (cursor : Option String) (k : String) (v : LSD) :
    Level :=
  match cursor with
  | none => levelInsert result k v
  | some pk =>
    match lookupLevel result pk with
    | some (LSD.level child) => levelInsert result pk (LSD.level (levelInsert child k v))
    | _ => result

/-- `result.entry(key_part).or_insert_with(|| LSD::Level(Level::default()))`
on the root map. -/
def asLevelOrInsert (result : Level) (k : String) : Level :=
  if (lookupLevel result k).isSome then result else result ++ [(k, LSD.level [])]

def asLevelGo (v : LSD) : List String → Level → Option String → Level
  | [], result, _ => result
  | [k], result, cursor => asLevelCursorInsert result cursor k v
  | k :: rest, result, _ =>
    -- source reads `result.entry(..)` here instead of going through
    -- `insert_into`, so the new cursor is a root child
    asLevelGo v rest (asLevelOrInsert result k) (some k)

def asLevel (keyParts : List String) (v : LSD) : Level :=
  asLevelGo v keyParts [] none

--
-- is_list (src/lsd.rs lines 564-567) and usize::from_str.
--

/-- `usize::from_str`: optional leading `+`, then one or more decimal
digits, value below `2 ^ 64` (64-bit `usize`). -/
def usizeFromStr (s : String) : Option Nat :=
  let ds := match s.data with
    | '+' :: rest => rest
    | cs => cs
  if ds.isEmpty then none
  else if ds.all Char.isDigit then
    let v := ds.foldl (fun a c => a * 10 + (c.toNat - '0'.toNat)) 0
    if v < 2 ^ 64 then some v else none
  else none

/-- `Level::is_list`: every key parses as a `usize`. -/
def isList (lvl : Level) : Bool :=
  lvl.all (fun e => (usizeFromStr e.1).isSome)

--
-- The streaming parser (src/lsd.rs lines 57-407).  The `BufReader` is
-- modelled as the list of remaining characters; each reading helper
-- returns its result together with the rest of the stream.  The
-- mutually recursive parsing functions take a fuel parameter (they
-- consume at least one character every few calls, so any fuel above
-- `8 * (input length + 8)` behaves as the non-fuelled original).
--

/-- `str::trim`: drop whitespace from both ends. -/
def trimChars (cs : List Char) : List Char :=
  ((cs.dropWhile Char.isWhitespace).reverse.dropWhile Char.isWhitespace).reverse

/-- `str::split('.')` and friends: split at every separator occurrence
(empty pieces preserved). -/
def splitOnChar (sep : Char) : List Char → List (List Char)
  | [] => [[]]
  | c :: cs =>
    match splitOnChar sep cs with
    | [] => [[]]
    | w :: ws => if c = sep then [] :: w :: ws else (c :: w) :: ws

/-- `BufRead::read_line`: characters up to and including the next
newline (or EOF). -/
def readLineRaw : List Char → List Char × List Char
  | [] => ([], [])
  | c :: cs =>
    if c = '\n' then ([c], cs)
    else
      let (l, r) := readLineRaw cs
      (c :: l, r)

/-- `read_line` (src/lsd.rs lines 373-381): the trimmed rest of the
current line, `none` when nothing was read or only whitespace remains. -/
def read_line (cs : List Char) : Option String × List Char :=
  match readLineRaw cs with
  | ([], rest) => (none, rest)
  | (l, rest) =>
    let t := trimChars l
    (if t.isEmpty then none else some (String.mk t), rest)

/-- `read_filled`: skip whitespace, return the next character. -/
def read_filled : List Char → Option Char × List Char
  | [] => (none, [])
  | c :: cs => if c.isWhitespace then read_filled cs else (some c, cs)

/-- `read_until_whitespace`: characters up to the next whitespace
character, which is consumed. -/
def read_until_whitespace : List Char → List Char × List Char
  | [] => ([], [])
  | c :: cs =>
    if c.isWhitespace then ([], cs)
    else
      let (w, r) := read_until_whitespace cs
      (c :: w, r)

/-- One hexadecimal digit of `u16_from_4_hex_chars` (src/util.rs). -/
def hexDigitVal (c : Char) : Option Nat :=
  if 'a' ≤ c ∧ c ≤ 'f' then some (c.toNat - 'a'.toNat + 10)
  else if 'A' ≤ c ∧ c ≤ 'F' then some (c.toNat - 'A'.toNat + 10)
  else if '0' ≤ c ∧ c ≤ '9' then some (c.toNat - '0'.toNat)
  else none

/-- `u16_from_4_hex_chars` (src/util.rs lines 277-315). -/
def u16From4HexChars (c1 c2 c3 c4 : Char) : Option Nat := do
  let a ← hexDigitVal c1
  let b ← hexDigitVal c2
  let c ← hexDigitVal c3
  let d ← hexDigitVal c4
  some (a * 4096 + b * 256 + c * 16 + d)

/-- `parse_string` (src/lsd.rs lines 239-282): reads until the closing
quote, decoding escape sequences; a lone UTF-16 surrogate unit is
`UnexpectedCharEscapeUnicode` (`decode_utf16` on a single unit). -/
def parse_string : Nat → Char → List Char → List Char →
    Except LSDParseError (String × List Char)
  | 0, _, _, _ => .error .unexpectedStringEnd
  | fuel + 1, closing, cs, acc =>
    match cs with
    | [] => .error .unexpectedStringEnd
    | c :: rest =>
      if c = closing then .ok (String.mk acc.reverse, rest)
      else if c = '\\' then
        match rest with
        | [] => .error .unexpectedStringEnd
        | e :: rest2 =>
          if e = '"' ∨ e = '\\' ∨ e = '\'' then parse_string fuel closing rest2 (e :: acc)
          else if e = 'n' then parse_string fuel closing rest2 ('\n' :: acc)
          else if e = 'r' then parse_string fuel closing rest2 ('\r' :: acc)
          else if e = 't' then parse_string fuel closing rest2 ('\t' :: acc)
          else if e = '0' then parse_string fuel closing rest2 (Char.ofNat 0 :: acc)
          else if e = 'b' then parse_string fuel closing rest2 (Char.ofNat 8 :: acc)
          else if e = 'f' then parse_string fuel closing rest2 (Char.ofNat 12 :: acc)
          else if e = 'u' ∨ e = 'x' then
            match rest2 with
            | h1 :: h2 :: h3 :: h4 :: rest3 =>
              match u16From4HexChars h1 h2 h3 h4 with
              | none => .error .unexpectedCharEscapeUnicode
              | some u =>
                if 0xD800 ≤ u ∧ u < 0xE000 then .error .unexpectedCharEscapeUnicode
                else parse_string fuel closing rest3 (Char.ofNat u :: acc)
            | _ => .error .unexpectedStringEnd
          else .error .unexpectedCharEscapeEnd
      else parse_string fuel closing rest (c :: acc)

mutual

/-- `parse_level` (src/lsd.rs lines 70-100): after an opening `{`, scan
the rest of the line; `}` on the same line demands only whitespace
between the braces, a newline opens a multi-line level. -/
def parse_level : Nat → List Char → List Char →
    Except LSDParseError (Level × List Char)
  | 0, _, _ => .error .unexpectedLevelEnd
  | fuel + 1, cs, innerOfSameLineAsOpen =>
    match cs with
    | [] => .error .unexpectedLevelEnd
    | c :: rest =>
      if c = '}' then
        if (trimChars innerOfSameLineAsOpen.reverse).isEmpty then .ok ([], rest)
        else .error .unexpectedNonEmptyInlineLevel
      else if c = '\n' then parse_level_inner fuel rest true []
      else parse_level fuel rest (c :: innerOfSameLineAsOpen)

/-- `parse_level_inner` (src/lsd.rs lines 147-203): repeatedly read a
key (quoted or bare), parse its value, expand dots via `as_level` and
merge into the accumulated level. -/
def parse_level_inner : Nat → List Char → Bool → Level →
    Except LSDParseError (Level × List Char)
  | 0, _, _, _ => .error .unexpectedLevelEnd
  | fuel + 1, cs, levelEndsWithClose, results =>
    match read_filled cs with
    | (none, rest) =>
      if levelEndsWithClose then .error .unexpectedLevelEnd else .ok (results, rest)
    | (some c, rest) =>
      if c = '}' then
        if levelEndsWithClose then .ok (results, rest) else .error .unexpectedLevelEnd
      else if c = ']' then .error .unexpectedListEnd
      else
        match
          (if c = '"' ∨ c = '\'' then parse_string fuel c rest []
           else
             let (w, r) := read_until_whitespace rest
             .ok (String.mk (c :: w), r))
        with
        | .error e => .error e
        | .ok (key, rest2) =>
          match parse_value fuel rest2 true with
          | .error e => .error e
          | .ok (value, rest3) =>
            -- the merge recursion depth is bounded by the node count of
            -- the expanded key/value tree, far below the parsing fuel
            match mergeLevelF fuel results
                (asLevel ((splitOnChar '.' key.data).map String.mk) value) with
            | .error e => .error e
            | .ok results2 => parse_level_inner fuel rest3 levelEndsWithClose results2

/-- `parse_list` (src/lsd.rs lines 205-237): elements are values keyed
by their running index rendered in decimal. -/
def parse_list : Nat → List Char → Level →
    Except LSDParseError (Level × List Char)
  | 0, _, _ => .error .unexpectedListEnd
  | fuel + 1, cs, results =>
    match read_filled cs with
    | (none, _) => .error .unexpectedListEnd
    | (some c, rest) =>
      if c = ']' then .ok (results, rest)
      else if c = '}' then .error .unexpectedLevelEnd
      else
        match parse_value_with_first_char fuel rest false c with
        | .error e => .error e
        | .ok (v, rest2) =>
          parse_list fuel rest2 (results ++ [(toString results.length, v)])

/-- `parse_value` (src/lsd.rs lines 284-301). -/
def parse_value : Nat → List Char → Bool →
    Except LSDParseError (LSD × List Char)
  | 0, _, _ => .error .emptyWhenExpectedValue
  | fuel + 1, cs, valueEndsWithNewline =>
    match read_filled cs with
    | (none, _) => .error .emptyWhenExpectedValue
    | (some c, rest) => parse_value_with_first_char fuel rest valueEndsWithNewline c

/-- `parse_value_with_first_char` (src/lsd.rs lines 303-367). -/
def parse_value_with_first_char : Nat → List Char → Bool → Char →
    Except LSDParseError (LSD × List Char)
  | 0, _, _, _ => .error .emptyWhenExpectedValue
  | fuel + 1, cs, valueEndsWithNewline, firstChar =>
    if firstChar = '{' then
      match parse_level fuel cs [] with
      | .error e => .error e
      | .ok (level, rest) =>
        if valueEndsWithNewline then
          match read_line rest with
          | (some _, _) => .error .unexpectedAfterLevelEnd
          | (none, rest2) => .ok (.level level, rest2)
        else .ok (.level level, rest)
    else if firstChar = '[' then
      match parse_list fuel cs [] with
      | .error e => .error e
      | .ok (list, rest) =>
        if valueEndsWithNewline then
          match read_line rest with
          | (some _, _) => .error .unexpectedAfterListEnd
          | (none, rest2) => .ok (.level list, rest2)
        else .ok (.level list, rest)
    else if firstChar = '"' ∨ firstChar = '\'' then
      match parse_string fuel firstChar cs [] with
      | .error e => .error e
      | .ok (s, rest) =>
        if valueEndsWithNewline then
          match read_line rest with
          | (some _, _) => .error .unexpectedAfterListEnd
          | (none, rest2) => .ok (.value s, rest2)
        else .ok (.value s, rest)
    else
      if valueEndsWithNewline then
        match read_line cs with
        | (some l, rest) => .ok (.value (firstChar.toString ++ l), rest)
        | (none, rest) => .ok (.value firstChar.toString, rest)
      else
        let (w, rest) := read_until_whitespace cs
        .ok (.value (String.mk (firstChar :: w)), rest)

end

/-- `LSD::parse` (src/lsd.rs lines 58-67): the whole stream is one
root-level body (not terminated by `}`), wrapped as a `Level`. -/
def LSD.parse (input : String) : Except LSDParseError LSD :=
  match parse_level_inner (8 * (input.length + 8)) input.data false [] with
  | .error e => .error e
  | .ok (lvl, _) => .ok (LSD.level lvl)

--
-- Accessors (src/lsd.rs lines 463-537): `get_inner` walks a key path,
-- `get_value`/`get_parse` additionally assert the node shape and
-- surface the caller-supplied `invalid` error on a mismatch; a missing
-- key is `Ok(None)`.
--

def LSD.get_inner : LSD → List String → Option LSD
  | lsd, [] => some lsd
  | LSD.level m, k :: rest =>
    match lookupLevel m k with
    | some x => x.get_inner rest
    | none => none
  | LSD.value _, _ :: _ => none

def levelGetValue {ε : Type} (lvl : Level) (path : List String) (invalid : ε) :
    Except ε (Option String) :=
  match (LSD.level lvl).get_inner path with
  | none => .ok none
  | some (LSD.value v) => .ok (some v)
  | some (LSD.level _) => .error invalid

/-- `get_parse`: `get_value` then `str::parse` via the given `FromStr`
model, the parse failure mapped to the same `invalid` error. -/
def levelGetParse {α ε : Type} (fromStr : String → Option α) (lvl : Level)
    (path : List String) (invalid : ε) : Except ε (Option α) :=
  match levelGetValue lvl path invalid with
  | .error e => .error e
  | .ok none => .ok none
  | .ok (some s) =>
    match fromStr s with
    | some v => .ok (some v)
    | none => .error invalid

--
-- String helpers (src/util.rs).
--

/-- Accumulating pass of `splitWhitespace`. -/
def splitWSAux : List Char → List Char → List (List Char)
  | [], acc => if acc.isEmpty then [] else [acc.reverse]
  | c :: cs, acc =>
    if c.isWhitespace then
      if acc.isEmpty then splitWSAux cs [] else acc.reverse :: splitWSAux cs []
    else splitWSAux cs (c :: acc)

/-- `str::split_whitespace`: non-empty words between whitespace runs. -/
def splitWhitespace (s : String) : List String :=
  (splitWSAux s.data []).map String.mk

/-- `split_into_words::<2>` (src/util.rs lines 254-271): exactly two
whitespace-separated words. -/
def splitIntoTwoWords (s : String) : Option (String × String) :=
  match splitWhitespace s with
  | [w1, w2] => some (w1, w2)
  | _ => none

/-- `str::to_lowercase`, modelled per character (the sources only
compare against ASCII alternatives). -/
def toLowercase (s : String) : String :=
  String.mk (s.data.map Char.toLower)

/-- `split_file_name` (src/util.rs lines 10-28): `("", "")` when the
name has no dot, otherwise the stem and the part after the last dot. -/
def split_file_name (filename : String) : String × String :=
  match splitOnChar '.' filename.data with
  | [] => ("", "")
  | [_] => ("", "")
  | parts =>
    let ext := parts.getLast!
    (String.mk (filename.data.take (filename.data.length - (ext.length + 1))),
     String.mk ext)

/-- `str::replace(_, "{}", with)`: every (non-overlapping, left-to-right)
occurrence of the two-character pattern `\x7b\x7d` replaced. -/
def replaceBracesChars (with_ : List Char) : List Char → List Char
  | '{' :: '}' :: rest => with_ ++ replaceBracesChars with_ rest
  | c :: rest => c :: replaceBracesChars with_ rest
  | [] => []

def replaceBraces (s with_ : String) : String :=
  String.mk (replaceBracesChars with_.data s.data)

/-- `bool::from_str`. -/
def boolFromStr (s : String) : Option Bool :=
  match s with
  | "true" => some true
  | "false" => some false
  | _ => none

/-- `str::starts_with` of the second argument with the first as the
needle, i.e. the first string is a prefix of the second. -/
def isPrefixOfStr (p s : String) : Bool :=
  List.isPrefixOf p.data s.data

--
-- BuildType (src/main.rs lines 21-51).
--

inductive BuildType where
  | Binary
  | Library
deriving Repr, DecidableEq

def BuildType.src_filename : BuildType → String
  | .Binary => "main"
  | .Library => "lib"

/-- `BuildType::from_str`: the lowercased input must be a prefix of
`"binary"` (checked first) or of `"library"`. -/
def BuildType.from_str (s : String) : Option BuildType :=
  let l := toLowercase s
  if isPrefixOfStr l "binary" then some .Binary
  else if isPrefixOfStr l "library" then some .Library
  else none

--
-- The CLI path to the requested build type: argv pre-processing
-- (src/main.rs lines 101-115), flag collection
-- (src/subcommand/mod.rs lines 57-88) and `parse_build_type`
-- (src/subcommand/build.rs lines 55-70, identical in new.rs).
--

/-- `subcommand::Error` and the build subcommand's `InnerParseError`,
flattened into the variants the modelled path can produce. -/
inductive CLIParseError where
  | parseRepeatedFlag
  | parseUnexpectedFlagValueBeforeAnyFlags (v : String)
  | buildTypeHasToHaveExactlyOneValue
  | unknownBuildType
deriving Repr, DecidableEq

/-- The argv loop of `main_res` (src/main.rs lines 101-115): arguments
before the first `--`/`-`/`/` separator go to `pre_dash_dash` - except
that EMPTY arguments are silently dropped (the `a if !a.is_empty()`
guard) - and everything after the separator goes to `post_dash_dash`. -/
def splitDashDash : List String → List String × List String
  | [] => ([], [])
  | arg :: rest =>
    if arg = "--" ∨ arg = "-" ∨ arg = "/" then ([], rest)
    else if arg = "" then splitDashDash rest
    else (arg :: (splitDashDash rest).1, (splitDashDash rest).2)

/-- `str::trim_start_matches(pat)`: repeatedly strip `pat` from the
front while it is a prefix; fuelled by the string length (each strip
removes at least one character). -/
def trimStartMatchesF : Nat → List Char → List Char → List Char
  | 0, _, s => s
  | fuel + 1, pat, s =>
    if pat ≠ [] ∧ pat.isPrefixOf s = true then
      trimStartMatchesF fuel pat (s.drop pat.length)
    else s

def trimStartMatches (pat s : String) : String :=
  String.mk (trimStartMatchesF s.length pat.data s.data)

/-- The flag-name normalisation of `parse_and_execute`
(src/subcommand/mod.rs lines 62-66): strip leading `--`, then `-`,
then `/`, in that order. -/
def trimFlagStart (s : String) : String :=
  trimStartMatches "/" (trimStartMatches "-" (trimStartMatches "--" s))

/-- The flag-collection loop of `parse_and_execute`
(src/subcommand/mod.rs lines 57-88) over the pre-separator arguments
after the subcommand name: a `-`/`/`-prefixed argument opens a new
flag (lowercased, a repeated name is `ParseRepeatedFlag`); any other
argument attaches to the most recently opened flag
(`ParseUnexpectedFlagValueBeforeAnyFlags` when there is none). -/
def collectFlags : List (String × List String) → List String →
    Except CLIParseError (List (String × List String))
  | flags, [] => .ok flags
  | flags, arg :: rest =>
    if isPrefixOfStr "-" arg || isPrefixOfStr "/" arg then
      if (flags.find? (fun e => e.1 = toLowercase (trimFlagStart arg))).isSome then
        .error .parseRepeatedFlag
      else collectFlags (flags ++ [(toLowercase (trimFlagStart arg), [])]) rest
    else
      match flags with
      | [] => .error (.parseUnexpectedFlagValueBeforeAnyFlags arg)
      | _ =>
        collectFlags (flags.dropLast ++ [(flags.getLast!.1, flags.getLast!.2 ++ [arg])]) rest

/-- `parse_build_type` (src/subcommand/build.rs lines 55-70): the `is`
flag must carry exactly one value, parsed by `BuildType::from_str`
(an unparsable value is `UnknownBuildType`). -/
def parse_build_type : List String → Except CLIParseError BuildType
  | [bt] =>
    match BuildType.from_str bt with
    | some t => .ok t
    | none => .error .unknownBuildType
  | _ => .error .buildTypeHasToHaveExactlyOneValue

/-- The CLI path from argv (program name already skipped) to the
requested build type of the `build` subcommand: `main_res`
pre-processing, then flag collection after the subcommand name, then
`flags.remove("is").map(parse_build_type).transpose()`. -/
def cliBuildTypeOf (argv : List String) : Except CLIParseError (Option BuildType) :=
  match (splitDashDash argv).1 with
  | [] => .ok none
  | _subcommand :: rest =>
    match collectFlags [] rest with
    | .error e => .error e
    | .ok flags =>
      match flags.find? (fun e => e.1 = "is") with
      | none => .ok none
      | some e =>
        match parse_build_type e.2 with
        | .ok t => .ok (some t)
        | .error err => .error err

--
-- MSVC profile (src/profile/msvc.rs).
--

namespace Msvc

inductive Standard where
  | CPP14 | CPP17 | CPP20 | CPPLatest | C11 | C17
deriving Repr, DecidableEq

def Standard.display : Standard → String
  | .CPP14 => "c++14"
  | .CPP17 => "c++17"
  | .CPP20 => "c++20"
  | .CPPLatest => "c++latest"
  | .C11 => "c11"
  | .C17 => "c17"

def Standard.from_str (s : String) : Option Standard :=
  let s := toLowercase s
  match s with
  | "c++14" | "cpp14" => some .CPP14
  | "c++17" | "cpp17" => some .CPP17
  | "c++20" | "cpp20" => some .CPP20
  | "c++latest" | "cpplatest" => some .CPPLatest
  | "c11" => some .C11
  | "c17" => some .C17
  | _ =>
    match splitIntoTwoWords s with
    | none => none
    | some (w1, w2) =>
      match w1, w2 with
      | "c++", "14" | "cpp", "14" => some .CPP14
      | "c++", "17" | "cpp", "17" => some .CPP17
      | "c++", "20" | "cpp", "20" => some .CPP20
      | "c++", "latest" | "cpp", "latest" => some .CPPLatest
      | "c", "11" => some .C11
      | "c", "17" => some .C17
      | _, _ => none

inductive Optimize where
  | MinimizeSize | MaximizeSpeed
deriving Repr, DecidableEq

def Optimize.display : Optimize → String
  | .MinimizeSize => "1"
  | .MaximizeSpeed => "2"

def Optimize.from_str (s : String) : Option Optimize :=
  let s := toLowercase s
  match s with
  | "1" | "o1" | "minsize" | "minimumsize" | "minimizesize" | "size" => some .MinimizeSize
  | "2" | "o2" | "maxspeed" | "maximumspeed" | "maximizespeed" | "speed" => some .MaximizeSpeed
  | _ =>
    match splitIntoTwoWords s with
    | none => none
    | some (w1, w2) =>
      match w1, w2 with
      | "o", "1" | "min", "size" | "minimum", "size" | "minimize", "size" => some .MinimizeSize
      | "o", "2" | "max", "speed" | "maximum", "speed" | "maximize", "speed" =>
        some .MaximizeSpeed
      | _, _ => none

inductive LibraryType where
  | Shared | Static
deriving Repr, DecidableEq

def LibraryType.from_str (s : String) : Option LibraryType :=
  let s := toLowercase s
  match s with
  | "static" | "lib" | "a" => some .Static
  | "shared" | "dll" | "so" => some .Shared
  | _ => none

structure Profile where
  compiler_path : Option String := none
  standard : Option Standard := none
  optimize : Option Optimize := none
  openmp : Bool := false
  library_type : LibraryType := .Shared
deriving Repr, DecidableEq

/-- `msvc::Profile::default()`. -/
def Profile.default : Profile := {}

def Profile.src_file_suffix (_ : Profile) : String := ".cpp"

def Profile.artifact_prefix_str (_ : Profile) (_ : BuildType) : String := ""

def Profile.artifact_suffix (p : Profile) : BuildType → String
  | .Binary => ".exe"
  | .Library =>
    match p.library_type with
    | .Shared => ".dll"
    | .Static => ".lib"

def Profile.compiler_command (p : Profile) : String :=
  p.compiler_path.getD "cl"

end Msvc

/-- Profile parse errors (src/profile/mod.rs). -/
inductive ProfileParseError where
  | couldNotFindMatchingCompiler
  | inheritingFromNonExistentProfile (name : String)
  | inheritIsNotAValue
  | missingProfileType
  | profileTypeIsNotAValue
  | invalidValueForKey (key : String)
deriving Repr, DecidableEq

/-- `TryReplace` for `Option<T>` fields (src/util.rs lines 212-224):
replace only when the overlay produced a value. -/
def tryReplaceOpt {α : Type} (cur : Option α) (opt : Option α) : Option α :=
  match opt with
  | some v => some v
  | none => cur

/-- `TryReplace` for plain fields (`bool`, `LibraryType`). -/
def tryReplaceVal {α : Type} (cur : α) (opt : Option α) : α :=
  match opt with
  | some v => v
  | none => cur

namespace Msvc

/-- `msvc::Profile::apply` (src/profile/msvc.rs lines 194-228): each
recognised option is `try_replace`d from the overlay level, a
wrong-shape or unparseable value for a present key being
`InvalidValueForKey`; the first failing lookup aborts (the `?`
operator), in source order. -/
def Profile.apply (p : Profile) (level : Level) : Except ProfileParseError Profile :=
  match levelGetValue level ["compiler_path"] (.invalidValueForKey "compiler_path") with
  | .error e => .error e
  | .ok cp =>
    match levelGetParse Standard.from_str level ["standard"] (.invalidValueForKey "standard") with
    | .error e => .error e
    | .ok std =>
      match levelGetParse Optimize.from_str level ["optimize"]
          (.invalidValueForKey "optimize") with
      | .error e => .error e
      | .ok opt =>
        match levelGetParse boolFromStr level ["openmp"] (.invalidValueForKey "openmp") with
        | .error e => .error e
        | .ok omp =>
          match levelGetParse LibraryType.from_str level ["library"]
              (.invalidValueForKey "library") with
          | .error e => .error e
          | .ok lib =>
            .ok { compiler_path := tryReplaceOpt p.compiler_path cp
                  standard := tryReplaceOpt p.standard std
                  optimize := tryReplaceOpt p.optimize opt
                  openmp := tryReplaceVal p.openmp omp
                  library_type := tryReplaceVal p.library_type lib }

/-- `inherit_with`: clone then `apply` (src/profile/msvc.rs lines
188-192). -/
def Profile.inherit_with (p : Profile) (level : Level) : Except ProfileParseError Profile :=
  Profile.apply p level

end Msvc

--
-- Configuration paths and the run specification
-- (src/configuration.rs).  `Path::join`/`display` is modelled as
-- `/`-separated string concatenation.
--

def pathJoin (a b : String) : String := a ++ "/" ++ b

/-- `local_build::Profile` (src/dependency/local_build.rs lines 26-47):
`inherit` propagates the top-level selected profile, any other value is
a fixed profile name. -/
inductive ProfilePolicy where
  | inherit
  | ofName (name : String)
deriving Repr, DecidableEq

/-- `Dependency::current_profile` for a local-build dependency. -/
def ProfilePolicy.currentProfile : ProfilePolicy → String → String
  | .inherit, selected => selected
  | .ofName n, _ => n

/-- The per-dependency data `compiler_arguments` consumes: the
dependency's `current_version()`, its profile-selection policy, and the
file names `fs::read_dir` yields in its cache `lib` directory. -/
structure CacheDep where
  version : String
  profile : ProfilePolicy
  libFiles : List String
deriving Repr, DecidableEq

structure Run where
  command : String
  arguments : List String
deriving Repr, DecidableEq

/-- The configuration fields the modelled operations read
(src/configuration.rs `Configuration`). -/
structure Configuration where
  projectDir : String
  name : String
  version : String
  deps : List (String × CacheDep)
  run : Option Run := none
deriving Repr, DecidableEq

def Configuration.src_dir (c : Configuration) : String :=
  pathJoin c.projectDir "src"

def Configuration.src_file (c : Configuration) (bt : BuildType) (prof : Msvc.Profile) : String :=
  pathJoin c.src_dir (bt.src_filename ++ prof.src_file_suffix)

def Configuration.target_dir (c : Configuration) (profile : String) : String :=
  pathJoin (pathJoin (pathJoin c.projectDir "target") c.version) profile

def Configuration.target_include_dir (c : Configuration) (profile : String) : String :=
  pathJoin (c.target_dir profile) "include"

def Configuration.target_artifact_dir (c : Configuration) (profile : String) : String :=
  pathJoin (c.target_dir profile) "artifact"

def Configuration.target_artifact_file (c : Configuration) (bt : BuildType)
    (profileName : String) (prof : Msvc.Profile) : String :=
  pathJoin (c.target_artifact_dir profileName)
    (prof.artifact_prefix_str bt ++ c.name ++ prof.artifact_suffix bt)

def Configuration.cache_dir (c : Configuration) : String :=
  pathJoin c.projectDir "cache"

/-- `cache_dep_dir`: empty version and profile components are omitted
(src/configuration.rs lines 369-385). -/
def Configuration.cache_dep_dir (c : Configuration) (dependency version profile : String) :
    String :=
  let res := pathJoin c.cache_dir dependency
  let res := if version ≠ "" then pathJoin res version else res
  if profile ≠ "" then pathJoin res profile else res

def Configuration.cache_dep_include_dir (c : Configuration)
    (dependency version profile : String) : String :=
  pathJoin (c.cache_dep_dir dependency version profile) "include"

def Configuration.cache_dep_lib_dir (c : Configuration)
    (dependency version profile : String) : String :=
  pathJoin (c.cache_dep_dir dependency version profile) "lib"

/-- The `LSD::Value` arm of `Run::parse` (src/configuration.rs lines
41-52): split on whitespace, first token the command (defaulting to
`"{}"` when there is none), the rest the arguments. -/
def Run.parseScalar (value : String) : Run :=
  match splitWhitespace value with
  | [] => { command := "{}", arguments := [] }
  | c :: rest => { command := c, arguments := rest }

/-- `run_command` (src/configuration.rs lines 264-277): every `{}` in
the command is replaced with the Binary target artifact file path. -/
def Configuration.run_command (c : Configuration) (profileName : String)
    (prof : Msvc.Profile) : String :=
  replaceBraces ((c.run.map Run.command).getD "{}")
    (c.target_artifact_file BuildType.Binary profileName prof)

/-- `run_arguments` (src/configuration.rs lines 279-297). -/
def Configuration.run_arguments (c : Configuration) (profileName : String)
    (prof : Msvc.Profile) : List String :=
  (c.run.map (fun r =>
    r.arguments.map (fun arg =>
      replaceBraces arg (c.target_artifact_file BuildType.Binary profileName prof)))).getD []

--
-- MSVC argument assembly (src/profile/msvc.rs lines 253-362).
--

/-- The lib-dir file filter: extension `lib`, `a` or `exp`. -/
def depLibFilter (f : String) : Bool :=
  let ext := (split_file_name f).2
  ext = "lib" || ext = "a" || ext = "exp"

namespace Msvc

/-- `msvc::Profile::compiler_arguments`: compiler flags, `/I` pairs,
the source file, bare library file names, `/link`, `/OUT:`, `/DLL` for
a shared library (`todo!` for static, modelled as `none`), and
`/LIBPATH:` entries.  The single dependency loop of the source
accumulates the three intermediate lists in declaration order. -/
def Profile.compiler_arguments (self : Profile) (config : Configuration)
    (bt : BuildType) (selected : String) : Option (List String) :=
  let args1 :=
    (if self.openmp then ["/openmp"] else [])
      ++ (match self.optimize with
          | some o => ["/O" ++ o.display]
          | none => [])
      ++ (match self.standard with
          | some st => ["/std:" ++ st.display]
          | none => [])
  let acc := config.deps.foldl
    (fun (acc : List String × List String × List String) d =>
      let (a, dep) := d
      let prof := dep.profile.currentProfile selected
      (acc.1 ++ [config.cache_dep_include_dir a dep.version prof],
       acc.2.1 ++ [config.cache_dep_lib_dir a dep.version prof],
       acc.2.2 ++ dep.libFiles.filter depLibFilter))
    ([], [], [])
  let linkerTail : Option (List String) :=
    if bt = BuildType.Library then
      match self.library_type with
      | .Shared => some ["/DLL"]
      | .Static => none
    else some []
  match linkerTail with
  | none => none
  | some tail =>
    some (args1
      ++ acc.1.flatMap (fun i => ["/I", i])
      ++ [config.src_file bt self]
      ++ acc.2.2
      ++ ["/link"]
      ++ ["/OUT:" ++ config.target_artifact_file bt selected self]
      ++ tail
      ++ acc.2.1.map (fun l => "/LIBPATH:" ++ l))

end Msvc

--
-- Build engine (src/configuration.rs `Configuration::build`).
--
-- Filesystem modification times are natural numbers; `last_modified_recursive`
-- of a tree is carried around as a single number.  A monotone clock
-- stamps every write: all writes of one build step are collapsed into
-- one stamp at the current clock value, after which the clock ticks
-- (real mtimes of a step are all ≥ the step's start and ≤ its end, and
-- only the recursive maximum is ever compared).
--

/-- `BuildError` (src/main.rs lines 57-83), restricted to the variants
the modelled control flow can produce; `cacheError` plays the role of
`CacheError::BuildError` wrapping a nested build failure. -/
inductive BuildError where
  | couldNotDetectSourceFile
  | buildTypeNeedsToBeSpecified
  | invalidProfile (name : String)
  | compilerFailedExitCode (code : Int)
  | cacheError (inner : BuildError)
deriving Repr, DecidableEq

/-- Step 2 of `Configuration::build` (src/configuration.rs lines
425-440): the `match` on `(build_type, has main src file, has lib src
file)`, arms in source order. -/
def detect_build_type : Option BuildType → Bool → Bool →
    Except BuildError BuildType
  | some bt, true, true => .ok bt
  | some .Binary, true, _ => .ok .Binary
  | some .Library, _, true => .ok .Library
  | none, true, true => .error .buildTypeNeedsToBeSpecified
  | none, true, _ => .ok .Binary
  | none, _, true => .ok .Library
  | _, _, _ => .error .couldNotDetectSourceFile

/-- A local-build dependency (src/dependency/local_build.rs): the
nested project's configuration-file and src-dir recursive mtimes, its
`target_dir(selected_profile)` recursive mtime when that directory
exists, and whether its `src/lib<suffix>` source file exists.  The
nested project is modelled without further dependencies of its own. -/
structure LocalBuildDep where
  configMtime : Nat
  srcMtime : Nat
  target : Option Nat
  hasLib : Bool
deriving Repr, DecidableEq

/-- A local-pair dependency (src/dependency/local_pair.rs): the two
source directories' recursive mtimes. -/
structure LocalPairDep where
  includeMtime : Nat
  libMtime : Nat
deriving Repr, DecidableEq

inductive Dep where
  | local_build (d : LocalBuildDep)
  | local_pair (d : LocalPairDep)
deriving Repr, DecidableEq

/-- `needs_recaching` of the two dependency kinds, applied to the
recursive mtime of the dependency's cache directory.
Local build (src/dependency/local_build.rs lines 119-145): true iff the
nested target dir is missing, or the cache mtime is strictly below the
max of the nested config-file, src-dir and target-dir mtimes (the
`||` short-circuits, so the target mtime is only read when the
directory exists).
Local pair (src/dependency/local_pair.rs): cache mtime strictly below
the max of the include and lib dir mtimes. -/
def Dep.needs_recaching : Dep → Nat → Bool
  | .local_build d, cacheMtime =>
    match d.target with
    | none => true
    | some tm => decide (cacheMtime < max d.configMtime (max d.srcMtime tm))
  | .local_pair d, cacheMtime =>
    decide (cacheMtime < max d.includeMtime d.libMtime)

/-- The nested `config.build(Some(Library), selected_profile)` a
local-build dependency's `cache` performs, for a dependency-free nested
project: detect the source file, apply the freshness gate, otherwise
wipe and rebuild the nested target (one stamp at the current clock). -/
def nestedBuild (d : LocalBuildDep) (clock : Nat) (compilerOk : Bool) :
    Except BuildError (LocalBuildDep × Nat) :=
  match detect_build_type (some .Library) false d.hasLib with
  | .error e => .error e
  | .ok _ =>
    match d.target with
    | some tm =>
      if max d.configMtime d.srcMtime ≤ tm then
        -- freshness gate of the nested build: nothing recached, target
        -- present and fresh
        .ok (d, clock)
      else if compilerOk then
        .ok ({ d with target := some clock }, clock + 1)
      else .error (.compilerFailedExitCode 1)
    | none =>
      if compilerOk then
        .ok ({ d with target := some clock }, clock + 1)
      else .error (.compilerFailedExitCode 1)

/-- `Dependency::cache`: local build first builds the nested project as
a Library and then copies its target into the cache; local pair copies
its two directories.  Either way the freshly written cache directory is
stamped with the clock.  Returns the updated dependency, the new cache
dir mtime and the advanced clock. -/
def Dep.cache : Dep → Nat → Bool → Except BuildError (Dep × Nat × Nat)
  | .local_build d, clock, compilerOk =>
    match nestedBuild d clock compilerOk with
    | .error e => .error (.cacheError e)
    | .ok (d2, clock2) => .ok (.local_build d2, clock2, clock2 + 1)
  | .local_pair d, clock, _ => .ok (.local_pair d, clock, clock + 1)

/-- Step 3 of `Configuration::build` (src/configuration.rs lines
444-500): for each dependency in declaration order, skip when its cache
directory exists and `needs_recaching` is false, otherwise create the
cache directories, run `cache`, and set `any_recached`.  Each entry
carries the recursive mtime of its cache directory when it exists. -/
def cacheDeps (clock : Nat) (compilerOk : Bool) :
    List (Dep × Option Nat) →
    Except BuildError (List (Dep × Option Nat) × Bool × Nat)
  | [] => .ok ([], false, clock)
  | (dep, some cm) :: rest =>
    if dep.needs_recaching cm then
      match dep.cache clock compilerOk with
      | .error e => .error e
      | .ok (dep2, cm2, clock2) =>
        match cacheDeps clock2 compilerOk rest with
        | .error e => .error e
        | .ok (rest2, _, clock3) => .ok ((dep2, some cm2) :: rest2, true, clock3)
    else
      match cacheDeps clock compilerOk rest with
      | .error e => .error e
      | .ok (rest2, any, clock2) => .ok ((dep, some cm) :: rest2, any, clock2)
  | (dep, none) :: rest =>
    match dep.cache clock compilerOk with
    | .error e => .error e
    | .ok (dep2, cm2, clock2) =>
      match cacheDeps clock2 compilerOk rest with
      | .error e => .error e
      | .ok (rest2, _, clock3) => .ok ((dep2, some cm2) :: rest2, true, clock3)

/-- The filesystem facts one `Configuration::build` invocation reads
and writes, for a fixed (requested build type, profile name) pair. -/
structure Project where
  profileExists : Bool
  hasMain : Bool
  hasLib : Bool
  configMtime : Nat
  srcMtime : Nat
  target : Option Nat
  deps : List (Dep × Option Nat)
deriving Repr, DecidableEq

/-- What the build did besides returning: whether it wiped the target
directory (step 5) and whether it spawned the compiler (step 6). -/
structure BuildEvents where
  deletedTarget : Bool
  spawnedCompiler : Bool
deriving Repr, DecidableEq

/-- The freshness gate condition of step 4 (src/configuration.rs lines
504-519): `!any_recached && target_dir.is_dir() &&
lm(target) >= max(lm(config_file), lm(src_dir))`. -/
def freshnessGate (anyRecached : Bool) (target : Option Nat)
    (configMtime srcMtime : Nat) : Bool :=
  !anyRecached &&
    (match target with
     | some tm => decide (max configMtime srcMtime ≤ tm)
     | none => false)

/-- `Configuration::build` (src/configuration.rs lines 411-635): steps
1-2 resolve the profile and the build type; step 3 caches dependencies;
step 4 applies the freshness gate and returns early; steps 5-7 wipe and
re-create the target, run the compiler, and stage artifacts - all
writes of steps 5-7 collapsed into one stamp of the target tree. -/
def Project.build (p : Project) (requested : Option BuildType) (compilerOk : Bool)
    (clock : Nat) : Except BuildError (Project × BuildEvents × Nat) :=
  if p.profileExists = false then .error (.invalidProfile "") else
  match detect_build_type requested p.hasMain p.hasLib with
  | .error e => .error e
  | .ok _ =>
    match cacheDeps clock compilerOk p.deps with
    | .error e => .error e
    | .ok (deps2, anyRecached, clock2) =>
      if freshnessGate anyRecached p.target p.configMtime p.srcMtime then
        .ok ({ p with deps := deps2 },
             { deletedTarget := false, spawnedCompiler := false }, clock2)
      else if compilerOk then
        .ok ({ p with deps := deps2, target := some clock2 },
             { deletedTarget := true, spawnedCompiler := true }, clock2 + 1)
      else .error (.compilerFailedExitCode 1)

/-- Well-formed clock: every modification time recorded in the project
lies strictly below the clock (mtimes never lie in the future). -/
def DepWF : Dep → Nat → Prop
  | .local_build d, clock =>
    d.configMtime < clock ∧ d.srcMtime < clock ∧ ∀ tm ∈ d.target, tm < clock
  | .local_pair d, clock => d.includeMtime < clock ∧ d.libMtime < clock

def ProjectWF (p : Project) (clock : Nat) : Prop :=
  p.configMtime < clock ∧ p.srcMtime < clock ∧ (∀ tm ∈ p.target, tm < clock) ∧
    ∀ e ∈ p.deps, DepWF e.1 clock ∧ ∀ cm ∈ e.2, cm < clock

--
-- Theorems.
--

/-- In the disambiguation table, the source file a build type needs:
`src/main<suffix>` for a Binary, `src/lib<suffix>` for a Library. -/
def srcFileExistsFor : BuildType → Bool → Bool → Bool
  | .Binary, hasMain, _ => hasMain
  | .Library, _, hasLib => hasLib

/-- C1: build-type disambiguation in step 2 of `Configuration::build`.
With both source files present and no requested type the result is
`BuildTypeNeedsToBeSpecified`; with neither present it is
`CouldNotDetectSourceFile` whatever was requested; with exactly one
present and no requested type the present one is chosen; a requested
type whose source file exists is honoured (also when both files exist);
and every outcome is one of these - in particular a success always has
its source file present, so the engine never guesses. -/
theorem c1_build_type_disambiguation :
    (detect_build_type none true true = .error .buildTypeNeedsToBeSpecified) ∧
    (∀ requested, detect_build_type requested false false = .error .couldNotDetectSourceFile) ∧
    (detect_build_type none true false = .ok .Binary) ∧
    (detect_build_type none false true = .ok .Library) ∧
    (∀ t hasMain hasLib, srcFileExistsFor t hasMain hasLib = true →
      detect_build_type (some t) hasMain hasLib = .ok t) ∧
    (∀ requested hasMain hasLib,
      detect_build_type requested hasMain hasLib = .error .buildTypeNeedsToBeSpecified ∨
      detect_build_type requested hasMain hasLib = .error .couldNotDetectSourceFile ∨
      ∃ t, detect_build_type requested hasMain hasLib = .ok t ∧
        srcFileExistsFor t hasMain hasLib = true) := by
  refine ⟨rfl, ?_, rfl, rfl, ?_, ?_⟩
  · intro requested
    cases requested with
    | none => rfl
    | some t => cases t <;> rfl
  · intro t hasMain hasLib h
    cases t <;> cases hasMain <;> cases hasLib <;>
      first
        | rfl
        | exact absurd h (by simp [srcFileExistsFor])
  · intro requested hasMain hasLib
    rcases requested with _ | t <;> [skip; cases t] <;> cases hasMain <;> cases hasLib <;>
      first
        | exact Or.inl rfl
        | exact Or.inr (Or.inl rfl)
        | exact Or.inr (Or.inr ⟨.Binary, rfl, rfl⟩)
        | exact Or.inr (Or.inr ⟨.Library, rfl, rfl⟩)

/-- Witness for C1 at a concrete input: a requested Binary with both
source files present builds the Binary. -/
theorem c1_build_type_disambiguation_witness :
    detect_build_type (some BuildType.Binary) true true = .ok BuildType.Binary :=
  c1_build_type_disambiguation.2.2.2.2.1 BuildType.Binary true true rfl

/-- C10 counterexample: a `--is` flag given an empty value does NOT
select `Binary` - it errors.  At the concrete argv
`build --is <empty>`, the `main_res` loop drops the empty argument
before flag collection, so the `is` flag ends up with zero values and
`parse_build_type` fails with `BuildTypeHasToHaveExactlyOneValue`;
`BuildType::from_str` never sees the empty string (even though, called
directly, it would return `Binary`). -/
theorem c10_empty_is_flag_cli_counterexample :
    splitDashDash ["build", "--is", ""] = (["build", "--is"], []) ∧
    cliBuildTypeOf ["build", "--is", ""] =
      .error .buildTypeHasToHaveExactlyOneValue ∧
    cliBuildTypeOf ["build", "--is", ""] ≠ .ok (some BuildType.Binary) ∧
    BuildType.from_str "" = some BuildType.Binary := by
  refine ⟨rfl, rfl, ?_, rfl⟩
  intro h
  rw [show cliBuildTypeOf ["build", "--is", ""] =
    .error .buildTypeHasToHaveExactlyOneValue from rfl] at h
  exact Except.noConfusion h

/-- C10 (as amended): `BuildType::from_str` succeeds exactly on strings
whose lowercase form is a prefix of `binary` or of `library`; `binary`
is checked first; the empty string, at the `from_str` level, parses as
`Binary`; the empty string is the only string that is a prefix of
both; BUT an empty `--is` value never reaches `from_str`: the argv
loop drops empty arguments, an empty argument therefore never appears
among the pre-separator arguments, a flag with no values fails
`parse_build_type` with `BuildTypeHasToHaveExactlyOneValue`, and the
concrete command line `build --is <empty>` errors that way (while a
non-empty value such as `b` flows through to `Binary`). -/
theorem c10_build_type_from_str_prefix_semantics :
    (∀ s, (BuildType.from_str s).isSome =
      (isPrefixOfStr (toLowercase s) "binary" || isPrefixOfStr (toLowercase s) "library")) ∧
    (BuildType.from_str "" = some BuildType.Binary) ∧
    (∀ s, isPrefixOfStr (toLowercase s) "binary" = true →
      BuildType.from_str s = some BuildType.Binary) ∧
    (∀ s, isPrefixOfStr (toLowercase s) "library" = true →
      isPrefixOfStr (toLowercase s) "binary" = false →
      BuildType.from_str s = some BuildType.Library) ∧
    (∀ s, isPrefixOfStr s "binary" = true → isPrefixOfStr s "library" = true → s = "") ∧
    (∀ args : List String, "" ∉ (splitDashDash args).1) ∧
    (parse_build_type [] = .error .buildTypeHasToHaveExactlyOneValue) ∧
    (cliBuildTypeOf ["build", "--is", ""] =
      .error .buildTypeHasToHaveExactlyOneValue) ∧
    (cliBuildTypeOf ["build", "--is", "b"] = .ok (some BuildType.Binary)) := by
  refine ⟨?_, rfl, ?_, ?_, ?_, ?_, rfl, rfl, rfl⟩
  · intro s
    by_cases h1 : isPrefixOfStr (toLowercase s) "binary" <;>
      by_cases h2 : isPrefixOfStr (toLowercase s) "library" <;>
        simp [BuildType.from_str, h1, h2]
  · intro s h
    simp [BuildType.from_str, h]
  · intro s h1 h2
    simp [BuildType.from_str, h1, h2]
  · intro s h1 h2
    unfold isPrefixOfStr at h1 h2
    obtain ⟨cs⟩ := s
    cases cs with
    | nil => rfl
    | cons c rest =>
      rw [show ("binary" : String).data = ['b', 'i', 'n', 'a', 'r', 'y'] from rfl] at h1
      rw [show ("library" : String).data = ['l', 'i', 'b', 'r', 'a', 'r', 'y'] from rfl] at h2
      simp only [List.isPrefixOf, Bool.and_eq_true, beq_iff_eq] at h1 h2
      exact absurd (h1.1.symm.trans h2.1) (by decide)
  · intro args
    induction args with
    | nil => simp [splitDashDash]
    | cons arg rest ih =>
      by_cases hsep : arg = "--" ∨ arg = "-" ∨ arg = "/"
      · simp [splitDashDash, hsep]
      · by_cases hemp : arg = ""
        · simp only [splitDashDash, if_neg hsep, if_pos hemp]
          exact ih
        · simp only [splitDashDash, if_neg hsep, if_neg hemp, List.mem_cons]
          rintro (h | h)
          · exact hemp h.symm
          · exact ih h

/-- Witness for C10: the single letter `B` lowercases to a prefix of
`binary` and selects `Binary`. -/
theorem c10_build_type_from_str_prefix_semantics_witness :
    BuildType.from_str "B" = some BuildType.Binary :=
  c10_build_type_from_str_prefix_semantics.2.2.1 "B" rfl

/-- C9: `Level::is_list` is true iff every key parses as a decimal
`usize` - no requirement of consecutiveness, of starting at 0, or of
non-emptiness: the empty level and the level with keys `3`, `7` are
classified as lists, while a non-numeric key is not. -/
theorem c9_is_list_all_integer_keys :
    (∀ lvl : Level, isList lvl = true ↔ ∀ e ∈ lvl, (usizeFromStr e.1).isSome = true) ∧
    (isList [] = true) ∧
    (isList [("3", LSD.value "x"), ("7", LSD.value "y")] = true) ∧
    (isList [("0", LSD.value "x"), ("a", LSD.value "y")] = false) := by
  refine ⟨?_, rfl, rfl, rfl⟩
  intro lvl
  exact List.all_eq_true

/-- Witness for C9: instantiating the characterisation at a singleton
level whose key is `5`. -/
theorem c9_is_list_all_integer_keys_witness :
    (usizeFromStr "5").isSome = true :=
  (c9_is_list_all_integer_keys.1 [("5", LSD.value "v")]).mp rfl ("5", LSD.value "v")
    (by simp)

/-- `mergeLevelF` ignores its fuel on an empty level. -/
theorem mergeLevelF_nil (fuel : Nat) (insertInto : Level) :
    mergeLevelF fuel insertInto [] = .ok insertInto := by
  cases fuel <;> rfl

/-- C6: the merge rules of `merge_level`.  Under a shared key, a level
merged onto a level recursively merges (in place); a scalar value
inserted under any existing key is `KeyCollisionValueAlreadyExists`; a
level inserted under a key holding a scalar is
`KeyCollisionValueWhenShouldBeLevel`; and a merge that succeeds on a
shared key had levels on both sides.  (`mergeLevelF` is the source
recursion with structural fuel; the statements hold for every fuel
value of the shape the recursion consumes.) -/
theorem c6_merge_collision_rules :
    (∀ fuel (insertInto : Level) key lvl l0,
      lookupLevel insertInto key = some (LSD.level l0) →
      mergeLevelF (fuel + 1) insertInto [(key, LSD.level lvl)] =
        match mergeLevelF fuel l0 lvl with
        | .error e => .error e
        | .ok merged => .ok (levelInsert insertInto key (LSD.level merged))) ∧
    (∀ fuel (insertInto : Level) key v,
      (lookupLevel insertInto key).isSome = true →
      mergeLevelF (fuel + 1) insertInto [(key, LSD.value v)] =
        .error (.keyCollisionValueAlreadyExists key)) ∧
    (∀ fuel (insertInto : Level) key lvl v,
      lookupLevel insertInto key = some (LSD.value v) →
      mergeLevelF (fuel + 1) insertInto [(key, LSD.level lvl)] =
        .error .keyCollisionValueWhenShouldBeLevel) ∧
    (∀ fuel (insertInto : Level) key x r y,
      lookupLevel insertInto key = some y →
      mergeLevelF (fuel + 1) insertInto [(key, x)] = .ok r →
      (∃ lx, x = LSD.level lx) ∧ (∃ ly, y = LSD.level ly)) := by
  refine ⟨?_, ?_, ?_, ?_⟩
  · intro fuel insertInto key lvl l0 h
    simp only [mergeLevelF, h]
    cases mergeLevelF fuel l0 lvl with
    | error e => rfl
    | ok merged => exact mergeLevelF_nil fuel _
  · intro fuel insertInto key v h
    simp only [mergeLevelF, h, if_true]
  · intro fuel insertInto key lvl v h
    simp only [mergeLevelF, h]
  · intro fuel insertInto key x r y hy h
    cases x with
    | value s =>
      simp only [mergeLevelF] at h
      rw [hy] at h
      simp at h
    | level lx =>
      refine ⟨⟨lx, rfl⟩, ?_⟩
      cases y with
      | value s =>
        simp only [mergeLevelF, hy] at h
        exact absurd h (by simp)
      | level ly => exact ⟨ly, rfl⟩

/-- Witness for C6: inserting the scalar `y` under the already-present
key `a` collides. -/
theorem c6_merge_collision_rules_witness :
    mergeLevelF 1 [("a", LSD.value "x")] [("a", LSD.value "y")] =
      .error (.keyCollisionValueAlreadyExists "a") :=
  c6_merge_collision_rules.2.1 0 [("a", LSD.value "x")] "a" "y" rfl

/-- C5 (code bug): the dotted key `a.b.c` does NOT expand to the nested
form.  `as_level` walks its cursor through `result.entry(..)` - an
entry of the root map - on every non-last key part, so every
intermediate part lands at the root: `a.b.c 1` parses to
`a \x7b\x7d  b \x7b c 1 \x7d` instead of the documented
`a \x7b b \x7b c 1 \x7d \x7d`.  Two-part dotted keys and the multi-line
nested form behave as documented, and the single-line `a \x7b b c \x7d`
is a non-empty inline level, which is an error. -/
theorem c5_dotted_key_expansion_bug_eval :
    LSD.parse "a.b.c 1\n" =
      .ok (.level [("a", .level []), ("b", .level [("c", .value "1")])]) ∧
    asLevel ["a", "b", "c"] (.value "1") =
      [("a", .level []), ("b", .level [("c", .value "1")])] ∧
    LSD.parse "a \x7b\nb \x7b\nc 1\n\x7d\n\x7d\n" =
      .ok (.level [("a", .level [("b", .level [("c", .value "1")])])]) ∧
    LSD.parse "a.b.c 1\n" ≠ LSD.parse "a \x7b\nb \x7b\nc 1\n\x7d\n\x7d\n" ∧
    LSD.parse "a.b c\n" = .ok (.level [("a", .level [("b", .value "c")])]) ∧
    LSD.parse "a \x7b\nb c\n\x7d\n" = .ok (.level [("a", .level [("b", .value "c")])]) ∧
    LSD.parse "a { b c }" = .error .unexpectedNonEmptyInlineLevel := by
  refine ⟨rfl, rfl, rfl, ?_, rfl, rfl, rfl⟩
  intro h
  rw [show LSD.parse "a.b.c 1\n" =
        .ok (.level [("a", .level []), ("b", .level [("c", .value "1")])]) from rfl,
      show LSD.parse "a \x7b\nb \x7b\nc 1\n\x7d\n\x7d\n" =
        .ok (.level [("a", .level [("b", .level [("c", .value "1")])])]) from rfl] at h
  simp at h

/-- C7: the scalar form of the run specification and its substitution.
The scalar is split on whitespace into command (first token, `\x7b\x7d`
when there is none, so the empty scalar behaves like `\x7b\x7d`) and
arguments (the rest); at execution every occurrence of `\x7b\x7d` in
the command and in each argument is replaced with the path of the
Binary target artifact file. -/
theorem c7_run_scalar_split_and_substitution :
    (∀ value, (Run.parseScalar value).command = ((splitWhitespace value).headD "{}") ∧
      (Run.parseScalar value).arguments = (splitWhitespace value).tail) ∧
    (Run.parseScalar "" = { command := "{}", arguments := [] }) ∧
    (Run.parseScalar "" = Run.parseScalar "{}") ∧
    (∀ (c : Configuration) (r : Run) profileName prof, c.run = some r →
      c.run_command profileName prof =
        replaceBraces r.command (c.target_artifact_file BuildType.Binary profileName prof) ∧
      c.run_arguments profileName prof =
        r.arguments.map (fun a =>
          replaceBraces a (c.target_artifact_file BuildType.Binary profileName prof))) ∧
    (replaceBraces "ab{}cd{}" "p" = "abpcdp") := by
  refine ⟨?_, rfl, rfl, ?_, rfl⟩
  · intro value
    unfold Run.parseScalar
    cases splitWhitespace value <;> simp
  · intro c r profileName prof h
    constructor <;> simp [Configuration.run_command, Configuration.run_arguments, h]

/-- Witness for C7: the spec's run-substitution scenario, with the MSVC
artifact naming of the embedding. -/
theorem c7_run_scalar_split_and_substitution_witness :
    Configuration.run_command
      { projectDir := ".", name := "hi", version := "0.1.0", deps := [],
        run := some { command := "./{}", arguments := ["--flag"] } }
      "default" {} =
      replaceBraces "./{}"
        (Configuration.target_artifact_file
          { projectDir := ".", name := "hi", version := "0.1.0", deps := [],
            run := some { command := "./{}", arguments := ["--flag"] } }
          BuildType.Binary "default" {}) :=
  (c7_run_scalar_split_and_substitution.2.2.2.1
    { projectDir := ".", name := "hi", version := "0.1.0", deps := [],
      run := some { command := "./{}", arguments := ["--flag"] } }
    { command := "./{}", arguments := ["--flag"] } "default" {} rfl).1

--
-- C3: MSVC argument order.
--

/-- The dependency loop of `compiler_arguments` accumulates its three
lists in declaration order; unrolled against an arbitrary starting
accumulator. -/
theorem msvc_dep_fold_spec (config : Configuration) (selected : String) :
    ∀ (deps : List (String × CacheDep)) (acc : List String × List String × List String),
      deps.foldl
        (fun (acc : List String × List String × List String) d =>
          let (a, dep) := d
          let prof := dep.profile.currentProfile selected
          (acc.1 ++ [config.cache_dep_include_dir a dep.version prof],
           acc.2.1 ++ [config.cache_dep_lib_dir a dep.version prof],
           acc.2.2 ++ dep.libFiles.filter depLibFilter)) acc =
      (acc.1 ++ deps.map (fun d =>
         config.cache_dep_include_dir d.1 d.2.version (d.2.profile.currentProfile selected)),
       acc.2.1 ++ deps.map (fun d =>
         config.cache_dep_lib_dir d.1 d.2.version (d.2.profile.currentProfile selected)),
       acc.2.2 ++ deps.flatMap (fun d => d.2.libFiles.filter depLibFilter)) := by
  intro deps
  induction deps with
  | nil => intro acc; simp
  | cons d rest ih =>
    intro acc
    obtain ⟨a, dep⟩ := d
    simp only [List.foldl_cons, ih, List.map_cons, List.flatMap_cons]
    simp [List.append_assoc]

/-- A string is a prefix of itself followed by anything. -/
theorem isPrefixOfStr_append_self (s t : String) : isPrefixOfStr s (s ++ t) = true := by
  unfold isPrefixOfStr
  rw [String.data_append]
  exact List.isPrefixOf_iff_prefix.mpr (List.prefix_append _ _)

theorem not_out_prefix_libpath (l : String) :
    isPrefixOfStr "/OUT:" ("/LIBPATH:" ++ l) = false := by
  unfold isPrefixOfStr
  rw [String.data_append,
    show ("/LIBPATH:" : String).data =
      '/' :: 'L' :: 'I' :: 'B' :: 'P' :: 'A' :: 'T' :: 'H' :: ':' :: [] from rfl]
  simp [List.isPrefixOf]

theorem not_out_prefix_std (l : String) :
    isPrefixOfStr "/OUT:" ("/std:" ++ l) = false := by
  unfold isPrefixOfStr
  rw [String.data_append,
    show ("/std:" : String).data = '/' :: 's' :: 't' :: 'd' :: ':' :: [] from rfl]
  simp [List.isPrefixOf]

/-- C3: for every configuration, build type and selected profile (with
the build type / library type combination that does not hit the
`todo!`), the MSVC argument vector is exactly: optional `/openmp`, then
optional `/O<level>`, then optional `/std:<std>`, then per dependency
in declaration order the two tokens `/I` and the include dir, then the
source file, then per dependency the bare `lib|a|exp` file names, then
`/link`, then `/OUT:<target artifact file>`, then `/DLL` iff building a
Library (Static instead aborts: the result is `none`), then
`/LIBPATH:<lib dir>` per dependency.  `/OUT:` is emitted exactly once:
under the stated non-interference assumptions on the configuration's
path strings, exactly one argument starts with `/OUT:`. -/
theorem c3_msvc_argument_order :
    (∀ (p : Msvc.Profile) (config : Configuration) (bt : BuildType) (selected : String),
      ¬(bt = BuildType.Library ∧ p.library_type = Msvc.LibraryType.Static) →
      p.compiler_arguments config bt selected = some (
        (if p.openmp then ["/openmp"] else [])
        ++ (match p.optimize with
            | some o => ["/O" ++ o.display]
            | none => [])
        ++ (match p.standard with
            | some st => ["/std:" ++ st.display]
            | none => [])
        ++ config.deps.flatMap (fun d =>
             ["/I", config.cache_dep_include_dir d.1 d.2.version
               (d.2.profile.currentProfile selected)])
        ++ [config.src_file bt p]
        ++ config.deps.flatMap (fun d => d.2.libFiles.filter depLibFilter)
        ++ ["/link"]
        ++ ["/OUT:" ++ config.target_artifact_file bt selected p]
        ++ (if bt = BuildType.Library then ["/DLL"] else [])
        ++ config.deps.map (fun d =>
             "/LIBPATH:" ++ config.cache_dep_lib_dir d.1 d.2.version
               (d.2.profile.currentProfile selected)))) ∧
    (∀ (p : Msvc.Profile) (config : Configuration) (selected : String),
      p.library_type = Msvc.LibraryType.Static →
      p.compiler_arguments config BuildType.Library selected = none) ∧
    (∀ (p : Msvc.Profile) (config : Configuration) (bt : BuildType) (selected : String)
      (args : List String),
      p.compiler_arguments config bt selected = some args →
      isPrefixOfStr "/OUT:" (config.src_file bt p) = false →
      (∀ d ∈ config.deps,
        isPrefixOfStr "/OUT:" (config.cache_dep_include_dir d.1 d.2.version
          (d.2.profile.currentProfile selected)) = false) →
      (∀ d ∈ config.deps, ∀ f ∈ d.2.libFiles,
        isPrefixOfStr "/OUT:" f = false) →
      args.countP (fun a => isPrefixOfStr "/OUT:" a) = 1) := by
  have horder : ∀ (p : Msvc.Profile) (config : Configuration) (bt : BuildType)
      (selected : String),
      ¬(bt = BuildType.Library ∧ p.library_type = Msvc.LibraryType.Static) →
      p.compiler_arguments config bt selected = some (
        (if p.openmp then ["/openmp"] else [])
        ++ (match p.optimize with
            | some o => ["/O" ++ o.display]
            | none => [])
        ++ (match p.standard with
            | some st => ["/std:" ++ st.display]
            | none => [])
        ++ config.deps.flatMap (fun d =>
             ["/I", config.cache_dep_include_dir d.1 d.2.version
               (d.2.profile.currentProfile selected)])
        ++ [config.src_file bt p]
        ++ config.deps.flatMap (fun d => d.2.libFiles.filter depLibFilter)
        ++ ["/link"]
        ++ ["/OUT:" ++ config.target_artifact_file bt selected p]
        ++ (if bt = BuildType.Library then ["/DLL"] else [])
        ++ config.deps.map (fun d =>
             "/LIBPATH:" ++ config.cache_dep_lib_dir d.1 d.2.version
               (d.2.profile.currentProfile selected))) := by
    intro p config bt selected hns
    unfold Msvc.Profile.compiler_arguments
    rw [msvc_dep_fold_spec config selected config.deps ([], [], [])]
    simp only [List.nil_append]
    have htail : (if bt = BuildType.Library then
        (match p.library_type with
         | Msvc.LibraryType.Shared => some ["/DLL"]
         | Msvc.LibraryType.Static => none)
        else some []) = some (if bt = BuildType.Library then ["/DLL"] else []) := by
      cases bt with
      | Binary => simp
      | Library =>
        cases hlt : p.library_type with
        | Shared => simp
        | Static => exact absurd ⟨rfl, hlt⟩ hns
    rw [htail]
    simp only [Option.some.injEq]
    rw [show (config.deps.map (fun d =>
        config.cache_dep_include_dir d.1 d.2.version
          (d.2.profile.currentProfile selected))).flatMap (fun i => ["/I", i]) =
          config.deps.flatMap (fun d =>
            ["/I", config.cache_dep_include_dir d.1 d.2.version
              (d.2.profile.currentProfile selected)]) from by
      rw [List.flatMap_map]]
    rw [List.map_map]
    simp [List.append_assoc]
  refine ⟨horder, ?_, ?_⟩
  · intro p config selected hst
    unfold Msvc.Profile.compiler_arguments
    simp [hst]
  · intro p config bt selected args hargs hsrc hinc hlib
    have hns : ¬(bt = BuildType.Library ∧ p.library_type = Msvc.LibraryType.Static) := by
      rintro ⟨rfl, hlt⟩
      rw [show p.compiler_arguments config BuildType.Library selected = none from by
        unfold Msvc.Profile.compiler_arguments; simp [hlt]] at hargs
      exact Option.noConfusion hargs
    rw [horder p config bt selected hns] at hargs
    obtain rfl : args = _ := (Option.some.injEq _ _).mp hargs.symm
    simp only [List.countP_append]
    have h1 : (if p.openmp then ["/openmp"] else []).countP
        (fun a => isPrefixOfStr "/OUT:" a) = 0 := by
      cases p.openmp <;> rfl
    have h2 : (match p.optimize with
        | some o => ["/O" ++ o.display]
        | none => ([] : List String)).countP (fun a => isPrefixOfStr "/OUT:" a) = 0 := by
      rcases p.optimize with _ | o
      · rfl
      · cases o <;> rfl
    have h3 : (match p.standard with
        | some st => ["/std:" ++ st.display]
        | none => ([] : List String)).countP (fun a => isPrefixOfStr "/OUT:" a) = 0 := by
      rcases p.standard with _ | st
      · rfl
      · simp [List.countP_cons, not_out_prefix_std]
    have h4 : (config.deps.flatMap (fun d =>
        ["/I", config.cache_dep_include_dir d.1 d.2.version
          (d.2.profile.currentProfile selected)])).countP
        (fun a => isPrefixOfStr "/OUT:" a) = 0 := by
      rw [List.countP_eq_zero]
      intro a ha
      rw [List.mem_flatMap] at ha
      obtain ⟨d, hd, ha⟩ := ha
      simp only [List.mem_cons, List.mem_singleton, List.not_mem_nil, or_false] at ha
      rcases ha with rfl | rfl
      · decide
      · simp [hinc d hd]
    have h5 : [config.src_file bt p].countP (fun a => isPrefixOfStr "/OUT:" a) = 0 := by
      simp [List.countP_cons, hsrc]
    have h6 : (config.deps.flatMap (fun d =>
        d.2.libFiles.filter depLibFilter)).countP
        (fun a => isPrefixOfStr "/OUT:" a) = 0 := by
      rw [List.countP_eq_zero]
      intro a ha
      rw [List.mem_flatMap] at ha
      obtain ⟨d, hd, ha⟩ := ha
      exact (by simp [hlib d hd a (List.mem_of_mem_filter ha)] :
        ¬(fun a => isPrefixOfStr "/OUT:" a) a = true)
    have h7 : (["/link"] : List String).countP (fun a => isPrefixOfStr "/OUT:" a) = 0 := by
      rfl
    have h8 : (["/OUT:" ++ config.target_artifact_file bt selected p]).countP
        (fun a => isPrefixOfStr "/OUT:" a) = 1 := by
      simp [List.countP_cons, isPrefixOfStr_append_self]
    have h9 : (if bt = BuildType.Library then ["/DLL"] else []).countP
        (fun a => isPrefixOfStr "/OUT:" a) = 0 := by
      cases bt <;> rfl
    have h10 : (config.deps.map (fun d =>
        "/LIBPATH:" ++ config.cache_dep_lib_dir d.1 d.2.version
          (d.2.profile.currentProfile selected))).countP
        (fun a => isPrefixOfStr "/OUT:" a) = 0 := by
      rw [List.countP_eq_zero]
      intro a ha
      rw [List.mem_map] at ha
      obtain ⟨d, _, rfl⟩ := ha
      simp [not_out_prefix_libpath]
    omega

/-- Witness for C3: the spec's MSVC argv scenario (`optimize speed`,
`standard cpp20`, `openmp true`, no dependencies, Binary, project `hi`,
profile `dbg`). -/
theorem c3_msvc_argument_order_witness :
    Msvc.Profile.compiler_arguments
      { openmp := true, optimize := some Msvc.Optimize.MaximizeSpeed,
        standard := some Msvc.Standard.CPP20 }
      { projectDir := ".", name := "hi", version := "0.1.0", deps := [] }
      BuildType.Binary "dbg" =
      some ["/openmp", "/O2", "/std:c++20", "./src/main.cpp", "/link",
            "/OUT:./target/0.1.0/dbg/artifact/hi.exe"] :=
  c3_msvc_argument_order.1
    { openmp := true, optimize := some Msvc.Optimize.MaximizeSpeed,
      standard := some Msvc.Standard.CPP20 }
    { projectDir := ".", name := "hi", version := "0.1.0", deps := [] }
    BuildType.Binary "dbg" (by decide)

--
-- C8: profile inheritance identity and additivity.
--

/-- `get_inner` on a one-segment path is `IndexMap::get`. -/
theorem get_inner_single (lvl : Level) (k : String) :
    (LSD.level lvl).get_inner [k] = lookupLevel lvl k := by
  unfold LSD.get_inner
  cases lookupLevel lvl k with
  | none => rfl
  | some x => cases x <;> rfl

theorem levelGetValue_none {ε : Type} (lvl : Level) (k : String) (inv : ε)
    (h : lookupLevel lvl k = none) : levelGetValue lvl [k] inv = .ok none := by
  unfold levelGetValue
  rw [get_inner_single, h]

theorem levelGetValue_value {ε : Type} (lvl : Level) (k : String) (inv : ε) (s : String)
    (h : lookupLevel lvl k = some (LSD.value s)) :
    levelGetValue lvl [k] inv = .ok (some s) := by
  unfold levelGetValue
  rw [get_inner_single, h]

theorem levelGetParse_none {α ε : Type} (f : String → Option α) (lvl : Level) (k : String)
    (inv : ε) (h : lookupLevel lvl k = none) :
    levelGetParse f lvl [k] inv = .ok none := by
  unfold levelGetParse
  rw [levelGetValue_none lvl k inv h]

theorem levelGetParse_value {α ε : Type} (f : String → Option α) (lvl : Level) (k : String)
    (inv : ε) (s : String) (v : α) (h : lookupLevel lvl k = some (LSD.value s))
    (hf : f s = some v) : levelGetParse f lvl [k] inv = .ok (some v) := by
  unfold levelGetParse
  rw [levelGetValue_value lvl k inv s h]
  show (match f s with
    | some v => (.ok (some v) : Except ε (Option α))
    | none => .error inv) = .ok (some v)
  rw [hf]

/-- C8: inheritance identity and additivity of override application.
An overlay level carrying none of the five recognised option keys
leaves the profile unchanged under `inherit_with`, hence its argument
output is identical on every `(config, build type, selected profile)`
triple; and in general each option of an `apply` result is the parsed
overlay value when the key is present and the inherited value
otherwise. -/
theorem c8_inherit_identity_and_additivity :
    (∀ (p : Msvc.Profile) (level : Level),
      lookupLevel level "compiler_path" = none →
      lookupLevel level "standard" = none →
      lookupLevel level "optimize" = none →
      lookupLevel level "openmp" = none →
      lookupLevel level "library" = none →
      p.inherit_with level = .ok p ∧
      ∀ q, p.inherit_with level = .ok q →
        ∀ config bt selected,
          q.compiler_arguments config bt selected = p.compiler_arguments config bt selected) ∧
    (∀ (p : Msvc.Profile) (level : Level) (q : Msvc.Profile),
      Msvc.Profile.apply p level = .ok q →
      ((lookupLevel level "compiler_path" = none → q.compiler_path = p.compiler_path) ∧
       (∀ s, lookupLevel level "compiler_path" = some (LSD.value s) →
          q.compiler_path = some s)) ∧
      ((lookupLevel level "standard" = none → q.standard = p.standard) ∧
       (∀ s v, lookupLevel level "standard" = some (LSD.value s) →
          Msvc.Standard.from_str s = some v → q.standard = some v)) ∧
      ((lookupLevel level "optimize" = none → q.optimize = p.optimize) ∧
       (∀ s v, lookupLevel level "optimize" = some (LSD.value s) →
          Msvc.Optimize.from_str s = some v → q.optimize = some v)) ∧
      ((lookupLevel level "openmp" = none → q.openmp = p.openmp) ∧
       (∀ s v, lookupLevel level "openmp" = some (LSD.value s) →
          boolFromStr s = some v → q.openmp = v)) ∧
      ((lookupLevel level "library" = none → q.library_type = p.library_type) ∧
       (∀ s v, lookupLevel level "library" = some (LSD.value s) →
          Msvc.LibraryType.from_str s = some v → q.library_type = v))) := by
  have happly : ∀ (p : Msvc.Profile) (level : Level),
      lookupLevel level "compiler_path" = none →
      lookupLevel level "standard" = none →
      lookupLevel level "optimize" = none →
      lookupLevel level "openmp" = none →
      lookupLevel level "library" = none →
      Msvc.Profile.apply p level = .ok p := by
    intro p level h1 h2 h3 h4 h5
    unfold Msvc.Profile.apply
    rw [levelGetValue_none level "compiler_path" _ h1,
      levelGetParse_none Msvc.Standard.from_str level "standard" _ h2,
      levelGetParse_none Msvc.Optimize.from_str level "optimize" _ h3,
      levelGetParse_none boolFromStr level "openmp" _ h4,
      levelGetParse_none Msvc.LibraryType.from_str level "library" _ h5]
    rfl
  constructor
  · intro p level h1 h2 h3 h4 h5
    have hid : p.inherit_with level = .ok p := happly p level h1 h2 h3 h4 h5
    refine ⟨hid, ?_⟩
    intro q hq config bt selected
    rw [hid] at hq
    cases hq
    rfl
  · intro p level q h
    unfold Msvc.Profile.apply at h
    split at h
    · exact absurd h (by simp)
    · split at h
      · exact absurd h (by simp)
      · split at h
        · exact absurd h (by simp)
        · split at h
          · exact absurd h (by simp)
          · split at h
            · exact absurd h (by simp)
            · rename_i x1 cp hcp x2 std hstd x3 opt hopt x4 omp homp x5 lib hlib
              rw [Except.ok.injEq] at h
              subst h
              refine ⟨⟨?_, ?_⟩, ⟨?_, ?_⟩, ⟨?_, ?_⟩, ⟨?_, ?_⟩, ⟨?_, ?_⟩⟩
              · intro hn
                rw [levelGetValue_none level "compiler_path" _ hn] at hcp
                cases hcp
                rfl
              · intro s hs
                rw [levelGetValue_value level "compiler_path" _ s hs] at hcp
                cases hcp
                rfl
              · intro hn
                rw [levelGetParse_none Msvc.Standard.from_str level "standard" _ hn] at hstd
                cases hstd
                rfl
              · intro s v hs hv
                rw [levelGetParse_value Msvc.Standard.from_str level "standard" _ s v hs hv]
                  at hstd
                cases hstd
                rfl
              · intro hn
                rw [levelGetParse_none Msvc.Optimize.from_str level "optimize" _ hn] at hopt
                cases hopt
                rfl
              · intro s v hs hv
                rw [levelGetParse_value Msvc.Optimize.from_str level "optimize" _ s v hs hv]
                  at hopt
                cases hopt
                rfl
              · intro hn
                rw [levelGetParse_none boolFromStr level "openmp" _ hn] at homp
                cases homp
                rfl
              · intro s v hs hv
                rw [levelGetParse_value boolFromStr level "openmp" _ s v hs hv] at homp
                cases homp
                rfl
              · intro hn
                rw [levelGetParse_none Msvc.LibraryType.from_str level "library" _ hn] at hlib
                cases hlib
                rfl
              · intro s v hs hv
                rw [levelGetParse_value Msvc.LibraryType.from_str level "library" _ s v hs hv]
                  at hlib
                cases hlib
                rfl

/-- Witness for C8: an overlay containing only the unrecognised
`inherit` key leaves a fully populated profile unchanged. -/
theorem c8_inherit_identity_and_additivity_witness :
    Msvc.Profile.inherit_with
      { compiler_path := some "cl", standard := some Msvc.Standard.CPP17,
        optimize := some Msvc.Optimize.MinimizeSize, openmp := true,
        library_type := Msvc.LibraryType.Shared }
      [("inherit", LSD.value "base")] =
      .ok { compiler_path := some "cl", standard := some Msvc.Standard.CPP17,
            optimize := some Msvc.Optimize.MinimizeSize, openmp := true,
            library_type := Msvc.LibraryType.Shared } :=
  (c8_inherit_identity_and_additivity.1
    { compiler_path := some "cl", standard := some Msvc.Standard.CPP17,
      optimize := some Msvc.Optimize.MinimizeSize, openmp := true,
      library_type := Msvc.LibraryType.Shared }
    [("inherit", LSD.value "base")] rfl rfl rfl rfl rfl).1

--
-- Engine lemmas for C2 and C4.
--

/-- When step 3 recached nothing, it also changed nothing: the
dependency list and the clock come back untouched. -/
theorem cacheDeps_no_recache :
    ∀ (deps : List (Dep × Option Nat)) (clock : Nat) (ok : Bool) deps2 c2,
      cacheDeps clock ok deps = .ok (deps2, false, c2) → deps2 = deps ∧ c2 = clock := by
  intro deps
  induction deps with
  | nil =>
    intro clock ok deps2 c2 h
    cases h
    exact ⟨rfl, rfl⟩
  | cons e rest ih =>
    intro clock ok deps2 c2 h
    obtain ⟨dep, cache⟩ := e
    cases cache with
    | none =>
      unfold cacheDeps at h
      cases hc : dep.cache clock ok with
      | error err => rw [hc] at h; exact Except.noConfusion h
      | ok r =>
        obtain ⟨dep2, cm2, clock2⟩ := r
        rw [hc] at h
        dsimp only at h
        cases hr : cacheDeps clock2 ok rest with
        | error err => rw [hr] at h; exact Except.noConfusion h
        | ok r2 =>
          obtain ⟨rest2, any2, clock3⟩ := r2
          rw [hr] at h
          simp at h
    | some cm =>
      unfold cacheDeps at h
      by_cases hn : dep.needs_recaching cm = true
      · rw [if_pos hn] at h
        cases hc : dep.cache clock ok with
        | error err => rw [hc] at h; exact Except.noConfusion h
        | ok r =>
          obtain ⟨dep2, cm2, clock2⟩ := r
          rw [hc] at h
          dsimp only at h
          cases hr : cacheDeps clock2 ok rest with
          | error err => rw [hr] at h; exact Except.noConfusion h
          | ok r2 =>
            obtain ⟨rest2, any2, clock3⟩ := r2
            rw [hr] at h
            simp at h
      · rw [if_neg hn] at h
        cases hr : cacheDeps clock ok rest with
        | error err => rw [hr] at h; exact Except.noConfusion h
        | ok r2 =>
          obtain ⟨rest2, any2, clock3⟩ := r2
          rw [hr] at h
          simp at h
          obtain ⟨h1, h2, h3⟩ := h
          subst h2
          obtain ⟨hrest, hclock⟩ := ih clock ok rest2 clock3 hr
          subst hrest hclock h1 h3
          exact ⟨rfl, rfl⟩

/-- When every dependency's cache directory exists and none needs
recaching, step 3 skips them all. -/
theorem cacheDeps_skip_all :
    ∀ (deps : List (Dep × Option Nat)) (clock : Nat) (ok : Bool),
      (∀ e ∈ deps, ∃ cm, e.2 = some cm ∧ e.1.needs_recaching cm = false) →
      cacheDeps clock ok deps = .ok (deps, false, clock) := by
  intro deps
  induction deps with
  | nil => intro clock ok _; rfl
  | cons e rest ih =>
    intro clock ok h
    obtain ⟨dep, cache⟩ := e
    obtain ⟨cm, hcm, hn⟩ := h (dep, cache) (List.mem_cons_self _ _)
    simp only at hcm
    subst hcm
    unfold cacheDeps
    rw [if_neg (by simp [hn])]
    rw [ih clock ok (fun x hx => h x (List.mem_cons_of_mem _ hx))]

/-- A successful `cache` of a well-formed dependency advances the
clock, stamps the cache directory below the new clock, keeps the
dependency well formed, and leaves it not needing recaching. -/
theorem dep_cache_post :
    ∀ (dep : Dep) (clock : Nat) dep2 cm2 c2,
      DepWF dep clock →
      dep.cache clock true = .ok (dep2, cm2, c2) →
      clock < c2 ∧ cm2 < c2 ∧ DepWF dep2 c2 ∧ dep2.needs_recaching cm2 = false := by
  intro dep clock dep2 cm2 c2 hwf h
  cases dep with
  | local_pair d =>
    cases h
    obtain ⟨hinc, hlib⟩ := hwf
    refine ⟨by omega, by omega, ⟨by omega, by omega⟩, ?_⟩
    simp only [Dep.needs_recaching, decide_eq_false_iff_not, not_lt]
    omega
  | local_build d =>
    obtain ⟨cfgM, srcM, tgt, hasLib⟩ := d
    obtain ⟨hcfg, hsrc, htgt⟩ := hwf
    simp only at hcfg hsrc htgt
    cases hasLib with
    | false => exact Except.noConfusion h
    | true =>
      cases tgt with
      | none =>
        cases h
        refine ⟨by omega, by omega, ⟨by (try dsimp only); omega, by (try dsimp only); omega, ?_⟩, ?_⟩
        · intro tm htm
          simp only [Option.mem_def, Option.some.injEq] at htm
          omega
        · simp only [Dep.needs_recaching, decide_eq_false_iff_not, not_lt]
          omega
      | some tm =>
        have htm : tm < clock := htgt tm rfl
        dsimp only [Dep.cache, nestedBuild] at h
        rw [show detect_build_type (some BuildType.Library) false true =
          .ok BuildType.Library from rfl] at h
        dsimp only at h
        by_cases hfresh : max cfgM srcM ≤ tm
        · rw [if_pos hfresh] at h
          cases h
          refine ⟨by omega, by omega, ⟨by (try dsimp only); omega, by (try dsimp only); omega, ?_⟩, ?_⟩
          · intro tm2 htm2
            simp only [Option.mem_def, Option.some.injEq] at htm2
            omega
          · simp only [Dep.needs_recaching, decide_eq_false_iff_not, not_lt]
            omega
        · rw [if_neg hfresh] at h
          cases h
          refine ⟨by omega, by omega, ⟨by (try dsimp only); omega, by (try dsimp only); omega, ?_⟩, ?_⟩
          · intro tm2 htm2
            simp only [Option.mem_def, Option.some.injEq] at htm2
            omega
          · simp only [Dep.needs_recaching, decide_eq_false_iff_not, not_lt]
            omega

/-- Step 3 as a whole: on success with a working compiler, the clock
never goes backwards and every resulting dependency entry has an
existing cache directory that does not need recaching, with all
modification times still below the clock. -/
theorem cacheDeps_post :
    ∀ (deps : List (Dep × Option Nat)) (clock : Nat) deps2 any c2,
      cacheDeps clock true deps = .ok (deps2, any, c2) →
      (∀ e ∈ deps, DepWF e.1 clock ∧ ∀ cm ∈ e.2, cm < clock) →
      clock ≤ c2 ∧
      ∀ e ∈ deps2, DepWF e.1 c2 ∧
        ∃ cm, e.2 = some cm ∧ cm < c2 ∧ e.1.needs_recaching cm = false := by
  intro deps
  induction deps with
  | nil =>
    intro clock deps2 any c2 h _
    cases h
    exact ⟨le_refl _, by intro e he; cases he⟩
  | cons e rest ih =>
    intro clock deps2 any c2 h hwf
    obtain ⟨dep, cache⟩ := e
    have hwfdep : DepWF dep clock ∧ ∀ cm ∈ cache, cm < clock :=
      hwf (dep, cache) (List.mem_cons_self _ _)
    have hwfrest : ∀ x ∈ rest, DepWF x.1 clock ∧ ∀ cm ∈ x.2, cm < clock :=
      fun x hx => hwf x (List.mem_cons_of_mem _ hx)
    have hrecache : ∀ dep2c cm2 clock2,
        dep.cache clock true = .ok (dep2c, cm2, clock2) →
        (match cacheDeps clock2 true rest with
          | Except.error e => Except.error e
          | Except.ok (rest2, _, clock3) =>
            Except.ok ((dep2c, some cm2) :: rest2, true, clock3)) =
          Except.ok (deps2, any, c2) →
        clock ≤ c2 ∧
        ∀ x ∈ deps2, DepWF x.1 c2 ∧
          ∃ cm, x.2 = some cm ∧ cm < c2 ∧ x.1.needs_recaching cm = false := by
      intro dep2c cm2 clock2 hc h2
      obtain ⟨hclt, hcm2, hwf2, hnr⟩ := dep_cache_post dep clock dep2c cm2 clock2 hwfdep.1 hc
      cases hr : cacheDeps clock2 true rest with
      | error err => rw [hr] at h2; exact Except.noConfusion h2
      | ok r2 =>
        obtain ⟨rest2, any2, clock3⟩ := r2
        rw [hr] at h2
        have hrest := ih clock2 rest2 any2 clock3 hr
          (fun x hx => by
            obtain ⟨hd, hcm⟩ := hwfrest x hx
            refine ⟨?_, fun cm hcm2 => lt_of_lt_of_le (hcm cm hcm2) (le_of_lt hclt)⟩
            cases hx2 : x.1 with
            | local_build d =>
              rw [hx2] at hd
              obtain ⟨a, b, c⟩ := hd
              exact ⟨by omega, by omega, fun tm htm => lt_of_lt_of_le (c tm htm) (le_of_lt hclt)⟩
            | local_pair d =>
              rw [hx2] at hd
              obtain ⟨a, b⟩ := hd
              exact ⟨by omega, by omega⟩)
        obtain ⟨hle, hall⟩ := hrest
        simp only [Except.ok.injEq, Prod.mk.injEq] at h2
        obtain ⟨hdeps, hany, hc2⟩ := h2
        subst hdeps hc2
        refine ⟨by omega, ?_⟩
        intro x hx
        rcases List.mem_cons.mp hx with rfl | hx2
        · refine ⟨?_, cm2, rfl, by omega, hnr⟩
          cases hd2 : dep2c with
          | local_build d =>
            rw [hd2] at hwf2
            obtain ⟨a, b, c⟩ := hwf2
            exact ⟨by omega, by omega, fun tm htm => lt_of_lt_of_le (c tm htm) hle⟩
          | local_pair d =>
            rw [hd2] at hwf2
            obtain ⟨a, b⟩ := hwf2
            exact ⟨by omega, by omega⟩
        · exact hall x hx2
    cases cache with
    | none =>
      unfold cacheDeps at h
      cases hc : dep.cache clock true with
      | error err => rw [hc] at h; exact Except.noConfusion h
      | ok r =>
        obtain ⟨dep2c, cm2, clock2⟩ := r
        rw [hc] at h
        dsimp only at h
        exact hrecache dep2c cm2 clock2 hc h
    | some cm =>
      unfold cacheDeps at h
      by_cases hn : dep.needs_recaching cm = true
      · rw [if_pos hn] at h
        cases hc : dep.cache clock true with
        | error err => rw [hc] at h; exact Except.noConfusion h
        | ok r =>
          obtain ⟨dep2c, cm2, clock2⟩ := r
          rw [hc] at h
          dsimp only at h
          exact hrecache dep2c cm2 clock2 hc h
      · rw [if_neg hn] at h
        cases hr : cacheDeps clock true rest with
        | error err => rw [hr] at h; exact Except.noConfusion h
        | ok r2 =>
          obtain ⟨rest2, any2, clock3⟩ := r2
          rw [hr] at h
          have hrest := ih clock rest2 any2 clock3 hr hwfrest
          obtain ⟨hle, hall⟩ := hrest
          simp only [Except.ok.injEq, Prod.mk.injEq] at h
          obtain ⟨hdeps, hany, hc2⟩ := h
          subst hdeps hc2
          refine ⟨hle, ?_⟩
          intro x hx
          rcases List.mem_cons.mp hx with rfl | hx2
          · refine ⟨?_, cm, rfl, lt_of_lt_of_le (hwfdep.2 cm rfl) hle,
              Bool.eq_false_iff.mpr (fun hc => hn hc)⟩
            cases hd2 : dep with
            | local_build d =>
              rw [hd2] at hwfdep
              obtain ⟨⟨a, b, c⟩, -⟩ := hwfdep
              exact ⟨lt_of_lt_of_le a hle, lt_of_lt_of_le b hle,
                fun tm htm => lt_of_lt_of_le (c tm htm) hle⟩
            | local_pair d =>
              rw [hd2] at hwfdep
              obtain ⟨⟨a, b⟩, -⟩ := hwfdep
              exact ⟨lt_of_lt_of_le a hle, lt_of_lt_of_le b hle⟩
          · exact hall x hx2

/-- The step-4 gate fires exactly when nothing was recached, the target
directory exists, and its mtime dominates config and src. -/
theorem freshnessGate_eq_true (any : Bool) (target : Option Nat) (c s : Nat) :
    freshnessGate any target c s = true ↔
      any = false ∧ ∃ tm, target = some tm ∧ max c s ≤ tm := by
  unfold freshnessGate
  cases any <;> cases target <;> simp

/-- The gate path of `build`: with an existing profile, a detectable
build type, a step 3 that recached nothing and a fresh target, `build`
succeeds and the filesystem, the events and the clock record that
nothing was deleted, spawned or written. -/
theorem build_fresh_core :
    ∀ (p : Project) (requested : Option BuildType) (ok : Bool) (clock : Nat)
      (bt : BuildType) deps2 c2 tm,
      p.profileExists = true →
      detect_build_type requested p.hasMain p.hasLib = .ok bt →
      cacheDeps clock ok p.deps = .ok (deps2, false, c2) →
      p.target = some tm →
      max p.configMtime p.srcMtime ≤ tm →
      p.build requested ok clock =
        .ok (p, { deletedTarget := false, spawnedCompiler := false }, clock) := by
  intro p requested ok clock bt deps2 c2 tm hpe hdet hcd htm hmax
  obtain ⟨hdeps, hclock⟩ := cacheDeps_no_recache p.deps clock ok deps2 c2 hcd
  subst hdeps hclock
  unfold Project.build
  rw [if_neg (by simp [hpe])]
  rw [hdet]
  dsimp only
  rw [hcd]
  dsimp only
  rw [if_pos ((freshnessGate_eq_true false p.target p.configMtime p.srcMtime).mpr
    ⟨rfl, tm, htm, hmax⟩)]

/-- What a successful `build` (with a working compiler) guarantees
about its result state: the source-side facts are untouched, the clock
does not go backwards, every dependency is cached and fresh, the target
exists and dominates config and src, and the profile existed. -/
theorem build_post :
    ∀ (p : Project) (requested : Option BuildType) (clock : Nat) p2 ev c2,
      ProjectWF p clock →
      p.build requested true clock = .ok (p2, ev, c2) →
      p2.profileExists = p.profileExists ∧ p2.hasMain = p.hasMain ∧
      p2.hasLib = p.hasLib ∧ p2.configMtime = p.configMtime ∧
      p2.srcMtime = p.srcMtime ∧ clock ≤ c2 ∧
      p.profileExists = true ∧
      (∃ bt, detect_build_type requested p.hasMain p.hasLib = .ok bt) ∧
      (∀ e ∈ p2.deps, ∃ cm, e.2 = some cm ∧ e.1.needs_recaching cm = false) ∧
      (∃ tm, p2.target = some tm ∧ max p2.configMtime p2.srcMtime ≤ tm) := by
  intro p requested clock p2 ev c2 hwf h
  unfold Project.build at h
  by_cases hpe : p.profileExists = false
  · rw [if_pos hpe] at h
    exact Except.noConfusion h
  · rw [if_neg hpe] at h
    have hpe2 : p.profileExists = true := by
      cases hb : p.profileExists
      · exact absurd hb hpe
      · rfl
    cases hdet : detect_build_type requested p.hasMain p.hasLib with
    | error err => rw [hdet] at h; exact Except.noConfusion h
    | ok bt =>
      rw [hdet] at h
      dsimp only at h
      cases hcd : cacheDeps clock true p.deps with
      | error err => rw [hcd] at h; exact Except.noConfusion h
      | ok r =>
        obtain ⟨deps2, any, c2'⟩ := r
        rw [hcd] at h
        dsimp only at h
        obtain ⟨hle, hall⟩ := cacheDeps_post p.deps clock deps2 any c2' hcd hwf.2.2.2
        by_cases hg : freshnessGate any p.target p.configMtime p.srcMtime = true
        · rw [if_pos hg] at h
          obtain ⟨-, tm, htm, hmax⟩ := (freshnessGate_eq_true _ _ _ _).mp hg
          simp only [Except.ok.injEq, Prod.mk.injEq] at h
          obtain ⟨hp2, hev, hc2⟩ := h
          subst hp2 hc2
          refine ⟨rfl, rfl, rfl, rfl, rfl, hle, hpe2, ?_, ?_, ?_⟩
          · exact ⟨bt, rfl⟩
          · intro e he
            obtain ⟨-, cm, hcm, -, hnr⟩ := hall e he
            exact ⟨cm, hcm, hnr⟩
          · exact ⟨tm, htm, hmax⟩
        · rw [if_neg hg] at h
          rw [if_pos (rfl : (true : Bool) = true)] at h
          simp only [Except.ok.injEq, Prod.mk.injEq] at h
          obtain ⟨hp2, hev, hc2⟩ := h
          subst hp2 hc2
          refine ⟨rfl, rfl, rfl, rfl, rfl, by omega, hpe2, ?_, ?_, ?_⟩
          · exact ⟨bt, rfl⟩
          · intro e he
            obtain ⟨-, cm, hcm, -, hnr⟩ := hall e he
            exact ⟨cm, hcm, hnr⟩
          · refine ⟨c2', rfl, ?_⟩
            have h1 := hwf.1
            have h2 := hwf.2.1
            dsimp only
            omega

/-- C2: the freshness gate and its idempotence consequence.  First
part: when step 3 recached nothing, the target directory exists and its
recursive mtime dominates the config file and the src dir, `build`
returns success with the project state unchanged - the target is not
deleted and the compiler is not spawned.  Second part: a second `build`
over the state a successful `build` left behind (with no interleaving
filesystem changes) short-circuits the same way: same state, no delete,
no compiler spawn. -/
theorem c2_freshness_gate_and_idempotence :
    (∀ (p : Project) (requested : Option BuildType) (ok : Bool) (clock : Nat)
      (bt : BuildType) deps2 c2 tm,
      p.profileExists = true →
      detect_build_type requested p.hasMain p.hasLib = .ok bt →
      cacheDeps clock ok p.deps = .ok (deps2, false, c2) →
      p.target = some tm →
      max p.configMtime p.srcMtime ≤ tm →
      p.build requested ok clock =
        .ok (p, { deletedTarget := false, spawnedCompiler := false }, clock)) ∧
    (∀ (p : Project) (requested : Option BuildType) (clock : Nat) p2 ev c2,
      ProjectWF p clock →
      p.build requested true clock = .ok (p2, ev, c2) →
      p2.build requested true c2 =
        .ok (p2, { deletedTarget := false, spawnedCompiler := false }, c2)) := by
  refine ⟨build_fresh_core, ?_⟩
  intro p requested clock p2 ev c2 hwf h
  obtain ⟨hprof, hmain, hlib, hcfg, hsrc, hle, hpe, ⟨bt, hdet⟩, hfresh, tm, htm, hmax⟩ :=
    build_post p requested clock p2 ev c2 hwf h
  exact build_fresh_core p2 requested true c2 bt p2.deps c2 tm
    (by rw [hprof, hpe])
    (by rw [hmain, hlib, hdet])
    (cacheDeps_skip_all p2.deps c2 true hfresh)
    htm hmax

/-- Witness for C2: a project with one already-cached local-pair
dependency and a fresh target short-circuits. -/
theorem c2_freshness_gate_and_idempotence_witness :
    Project.build
      { profileExists := true, hasMain := true, hasLib := false,
        configMtime := 3, srcMtime := 4, target := some 6,
        deps := [(Dep.local_pair { includeMtime := 1, libMtime := 2 }, some 5)] }
      none true 10 =
      .ok ({ profileExists := true, hasMain := true, hasLib := false,
             configMtime := 3, srcMtime := 4, target := some 6,
             deps := [(Dep.local_pair { includeMtime := 1, libMtime := 2 }, some 5)] },
           { deletedTarget := false, spawnedCompiler := false }, 10) :=
  c2_freshness_gate_and_idempotence.1
    { profileExists := true, hasMain := true, hasLib := false,
      configMtime := 3, srcMtime := 4, target := some 6,
      deps := [(Dep.local_pair { includeMtime := 1, libMtime := 2 }, some 5)] }
    none true 10 BuildType.Binary
    [(Dep.local_pair { includeMtime := 1, libMtime := 2 }, some 5)] 10 6
    rfl rfl rfl rfl (by decide)

/-- C4: `needs_recaching` of a local-build dependency is true iff the
nested project's target dir (for the selected profile) is missing, or
the cache dir's recursive mtime is strictly below the max of the nested
config-file, src-dir and target-dir mtimes; and this predicate is
exactly what step 3 consults for a dependency whose cache directory
exists: false skips the dependency, true re-caches it and sets
`any_recached`. -/
theorem c4_needs_recaching_characterisation :
    (∀ (d : LocalBuildDep) (cm : Nat),
      (Dep.local_build d).needs_recaching cm = true ↔
        (d.target = none ∨ ∃ tm, d.target = some tm ∧
          cm < max d.configMtime (max d.srcMtime tm))) ∧
    (∀ (dep : Dep) (cm : Nat) (rest : List (Dep × Option Nat)) (clock : Nat) (ok : Bool),
      dep.needs_recaching cm = false →
      cacheDeps clock ok ((dep, some cm) :: rest) =
        match cacheDeps clock ok rest with
        | .error e => .error e
        | .ok (rest2, any, c2) => .ok ((dep, some cm) :: rest2, any, c2)) ∧
    (∀ (dep : Dep) (cm : Nat) (rest : List (Dep × Option Nat)) (clock : Nat) (ok : Bool),
      dep.needs_recaching cm = true →
      cacheDeps clock ok ((dep, some cm) :: rest) =
        match dep.cache clock ok with
        | .error e => .error e
        | .ok (dep2, cm2, c2) =>
          match cacheDeps c2 ok rest with
          | .error e => .error e
          | .ok (rest2, _, c3) => .ok ((dep2, some cm2) :: rest2, true, c3)) := by
  refine ⟨?_, ?_, ?_⟩
  · intro d cm
    obtain ⟨cfg, src, tgt, hl⟩ := d
    cases tgt <;> simp [Dep.needs_recaching]
  · intro dep cm rest clock ok h
    conv_lhs => unfold cacheDeps
    rw [if_neg (by simp [h])]
  · intro dep cm rest clock ok h
    conv_lhs => unfold cacheDeps
    rw [if_pos h]

/-- Witness for C4: a fresh local-pair dependency entry is skipped by
step 3, leaving the list unchanged and `any_recached` false. -/
theorem c4_needs_recaching_characterisation_witness :
    cacheDeps 7 true [(Dep.local_pair { includeMtime := 1, libMtime := 2 }, some 5)] =
      .ok ([(Dep.local_pair { includeMtime := 1, libMtime := 2 }, some 5)], false, 7) :=
  c4_needs_recaching_characterisation.2.1
    (Dep.local_pair { includeMtime := 1, libMtime := 2 }) 5 [] 7 true rfl

end Buildpp
